import Mathlib

/-!
# ippd-openmp: timing harness for the `parallel_region` and `saxpy` benchmarks

Shallow embedding of the four C drivers

* `src/parallel_region/omp/parallel_region.c`
* `src/parallel_region/sequencial/parallel_region.c`
* `src/saxpy/omp/saxpy.c`
* `src/saxpy/seq/saxpy.c`

Conventions of the embedding.

* Scalars (`double`, `float`) are elements of a field `α`; the theorems about
  signs and bounds are stated at `α = ℝ`.  The decimal literals of the source are
  the fractions they denote (`0.1 = 1/10`, `9.9 = 99/10`, `0.01 = 1/100`,
  `2.5f = 5/2`).
* A buffer of `n` elements is a `List α` of length `n`; `p[i]` is `p.getD i 0`
  and `p[i] = v` is `p.set i v`.
* `size_t` is `Nat` reduced modulo `2 ^ 64` where the source can wrap.
* The C library and the OpenMP runtime are oracles, collected in `Libm` and `Env`.
-/

namespace IppdOpenmp

/-- Number of values of a `size_t` (LP64). -/
def SIZE_MOD : Nat := 2 ^ 64

/-- The functions of `<math.h>` the kernels call. -/
structure Libm (α : Type) where
  sin : α → α
  cos : α → α
  sqrt : α → α
  log : α → α
  exp : α → α

/-- An order in which the runtime executes the `n` iterations of a work-shared or
vectorised loop: every iteration `0 .. n-1` exactly once. -/
structure Schedule (n : Nat) where
  order : List Nat
  perm : order.Perm (List.range n)

/-- The C loop `for (size_t i = 0; i < n; i++) body`. -/
def for_range {σ : Type} (n : Nat) (body : Nat → σ → σ) (s : σ) : σ :=
  (List.range n).foldl (fun st i => body i st) s

/-- A loop under `#pragma omp for`, `#pragma omp parallel for`, `#pragma omp simd` or
`#pragma omp parallel for simd`: the iterations run in the order the schedule gives
(each iteration touches only its own index `i`, so iterations are atomic steps). -/
def omp_for {σ : Type} {n : Nat} (sched : Schedule n) (body : Nat → σ → σ) (s : σ) : σ :=
  sched.order.foldl (fun st i => body i st) s

section Kernels

variable {α : Type} [Field α]

/-- Function `process_sequential` of `parallel_region.c` (both directories): returns the
buffers `(y, z)` after the two loops. -/
def process_sequential (L : Libm α) (x y z : List α) (n : Nat) : List α × List α :=
  let y1 := for_range n
    (fun i y => y.set i (L.sin (x.getD i 0) * L.cos (x.getD i 0) + L.sqrt (x.getD i 0))) y
  let z1 := for_range n
    (fun i z => z.set i (L.log (y1.getD i 0 + 1) * L.exp (-(y1.getD i 0) * (1 / 100)))) z
  (y1, z1)

/-- Function `process_ingenua`: two consecutive `#pragma omp parallel for` loops, each with
its own team and schedule. -/
def process_ingenua (L : Libm α) {n : Nat} (s1 s2 : Schedule n) (x y z : List α) :
    List α × List α :=
  let y1 := omp_for s1
    (fun i y => y.set i (L.sin (x.getD i 0) * L.cos (x.getD i 0) + L.sqrt (x.getD i 0))) y
  let z1 := omp_for s2
    (fun i z => z.set i (L.log (y1.getD i 0 + 1) * L.exp (-(y1.getD i 0) * (1 / 100)))) z
  (y1, z1)

/-- Function `process_arrumada`: one `#pragma omp parallel` region holding two `#pragma omp for`
loops; the implicit barrier after the first loop means the second starts from the
finished `y`. -/
def process_arrumada (L : Libm α) {n : Nat} (s1 s2 : Schedule n) (x y z : List α) :
    List α × List α :=
  let y1 := omp_for s1
    (fun i y => y.set i (L.sin (x.getD i 0) * L.cos (x.getD i 0) + L.sqrt (x.getD i 0))) y
  let z1 := omp_for s2
    (fun i z => z.set i (L.log (y1.getD i 0 + 1) * L.exp (-(y1.getD i 0) * (1 / 100)))) z
  (y1, z1)

/-- Function `saxpy_seq` of `saxpy.c` (both directories): returns the buffer `y`. -/
def saxpy_seq (a : α) (x y : List α) (n : Nat) : List α :=
  for_range n (fun i y => y.set i (a * x.getD i 0 + y.getD i 0)) y

/-- Function `saxpy_simd`: the loop of `saxpy_seq` under `#pragma omp simd`. -/
def saxpy_simd (a : α) {n : Nat} (s : Schedule n) (x y : List α) : List α :=
  omp_for s (fun i y => y.set i (a * x.getD i 0 + y.getD i 0)) y

/-- Function `saxpy_parallel_simd`: the loop under `#pragma omp parallel for simd`. -/
def saxpy_parallel_simd (a : α) {n : Nat} (s : Schedule n) (x y : List α) : List α :=
  omp_for s (fun i y => y.set i (a * x.getD i 0 + y.getD i 0)) y

/-- The loop `for (size_t i = 0; i < n; i += n/100 + 1) body` of `use_results`, with
the `size_t` wrap of `i += ...`; `fuel` bounds the number of loop tests, and `none`
means the fuel ran out. -/
def use_results_for {σ : Type} (n : Nat) (body : Nat → σ → σ) : Nat → Nat → σ → Option σ
  | 0, _, _ => none
  | fuel + 1, i, s =>
    if i < n then use_results_for n body fuel ((i + (n / 100 + 1)) % SIZE_MOD) (body i s)
    else some s

/-- Function `use_results` of `parallel_region.c` (both directories), given the fuel of
its loop. -/
def use_results (fuel : Nat) (y z : List α) (n : Nat) : Option α :=
  use_results_for n (fun i sum => sum + (y.getD i 0 + z.getD i 0)) fuel 0 0

/-- The indices `use_results` reads, in order: the same loop, recording `i`. -/
def use_results_reads (fuel : Nat) (n : Nat) : Option (List Nat) :=
  use_results_for n (fun i l => l ++ [i]) fuel 0 []

/-- Relative error of `a` with respect to `b`. -/
def rel_err {β : Type} [LinearOrderedField β] (a b : β) : β := |a - b| / |b|

end Kernels

/-! ## The drivers -/

/-- What the drivers take from the C library, the operating system and the OpenMP
runtime. -/
structure Env (α : Type) where
  /-- The macro `RAND_MAX` of `<stdlib.h>`. -/
  RAND_MAX : Nat
  /-- The value `rand seed k` is what the `k`-th call of `rand()` after `srand(seed)` returns. -/
  rand : Nat → Nat → Nat
  /-- The value `clock k` is the `k`-th reading of `CLOCK_MONOTONIC` by `get_time`, in seconds. -/
  clock : Nat → α
  /-- Whether the `k`-th `malloc` of the run, asked for `size` bytes, returns memory. -/
  malloc_ok : Nat → Nat → Bool
  /-- What fresh memory holds. -/
  junk : α
  /-- The schedule of the `j`-th work-shared loop of the kernel invocation `id`. -/
  sched : Nat → Nat → (n : Nat) → Schedule n

/-- One line `name,n,threads,mean,stddev` of the report. -/
structure Record (α : Type) where
  name : String
  n : Nat
  effective_threads : Int
  mean : α
  stddev : α
  deriving DecidableEq

/-- Observable actions of a run: stores to the `volatile` global `dummy_sum`, lines
printed on standard output, lines printed on the error stream. -/
inductive Event (α : Type) where
  | volatile_store (value : α)
  | printf (r : Record α)
  | fprintf_stderr (msg : String)
  deriving DecidableEq

/-- How a run of `main` ends: `return status` after the given observable actions, or
undefined behaviour (a write through `NULL`, a write past a buffer, a loop that does
not end). -/
inductive Outcome (α : Type) where
  | exit (status : Int) (events : List (Event α))
  | undefined
  deriving DecidableEq

/-- The lines printed on standard output among the observable actions. -/
def stdout_records {α : Type} (evs : List (Event α)) : List (Record α) :=
  evs.filterMap (fun e => match e with
    | Event.printf r => some r
    | _ => none)

/-- The values stored to `dummy_sum` among the observable actions. -/
def volatile_stores {α : Type} (evs : List (Event α)) : List α :=
  evs.filterMap (fun e => match e with
    | Event.volatile_store v => some v
    | _ => none)

/-- The standard output of a run (nothing when the behaviour is undefined). -/
def Outcome.records {α : Type} : Outcome α → List (Record α)
  | Outcome.exit _ evs => stdout_records evs
  | Outcome.undefined => []

section Drivers

variable {α : Type} [Field α]

/-- Function `get_time` of the four drivers, at its `k`-th call of the run: the reading
of `CLOCK_MONOTONIC` in seconds. -/
def get_time (env : Env α) (k : Nat) : α := env.clock k

/-- The value `0.1 + 9.9 * (double)rand() / RAND_MAX` that `init_vector` stores for the
draw `r`. -/
def init_value (RAND_MAX r : Nat) : α := 1 / 10 + 99 / 10 * (r : α) / (RAND_MAX : α)

/-- Function `init_vector` of `parallel_region.c` (both directories). -/
def init_vector (env : Env α) (x : List α) (n : Nat) (seed : Nat) : List α :=
  for_range n (fun i x => x.set i (init_value env.RAND_MAX (env.rand seed i))) x

/-- Function `init_vectors` of `saxpy.c` (both directories): returns `(x, y)`. -/
def init_vectors (env : Env α) (x y : List α) (n : Nat) (seed : Nat) : List α × List α :=
  for_range n (fun i xy =>
    (xy.1.set i ((env.rand seed (2 * i) : α) / (env.RAND_MAX : α)),
     xy.2.set i ((env.rand seed (2 * i + 1) : α) / (env.RAND_MAX : α)))) (x, y)

/-- The statistics lines shared by the four drivers:
`mean = total_time / num_runs`, the `variance` loop over `times[0 .. num_runs-1]`, and
`stddev = (num_runs > 1) ? sqrt(variance / (num_runs - 1)) : 0.0`.  Returns `(mean, stddev)`. -/
def mean_stddev (L : Libm α) (times : List α) (total_time : α) (num_runs : Int) : α × α :=
  let mean := total_time / (num_runs : α)
  let variance := for_range num_runs.toNat
    (fun i variance => variance + (times.getD i 0 - mean) * (times.getD i 0 - mean)) 0
  let stddev := if num_runs > 1 then L.sqrt (variance / ((num_runs - 1 : Int) : α)) else 0
  (mean, stddev)

/-- The variant indices the loop `for (int v = start_v; v < end_v; v++)` visits, with
`start_v` and `end_v` computed from `version` as in the two OpenMP drivers. -/
def version_range (version num_versions : Int) : List Nat :=
  let start_v : Int := if version ≥ 0 ∧ version < num_versions then version else 0
  let end_v : Int := if version ≥ 0 ∧ version < num_versions then version + 1 else num_versions
  (List.range (end_v - start_v).toNat).map (fun k => start_v.toNat + k)

/-- The value `(size_t)atol(argv[k+1])` when `argc >= k+2`, else the default; `args` holds the
integers `atol`/`atoi` read from `argv[1..]`. -/
def arg_size_t (args : List Int) (k : Nat) (dflt : Nat) : Nat :=
  match args.get? k with
  | some a => (a % (SIZE_MOD : Int)).toNat
  | none => dflt

/-- The value `atoi(argv[k+1])` when `argc >= k+2`, else the default. -/
def arg_int (args : List Int) (k : Nat) (dflt : Int) : Int :=
  match args.get? k with
  | some a => a
  | none => dflt

/-- The value `(unsigned int)atoi(argv[k+1])` when `argc >= k+2`, else the default. -/
def arg_unsigned (args : List Int) (k : Nat) (dflt : Nat) : Nat :=
  match args.get? k with
  | some a => (a % (2 ^ 32 : Int)).toNat
  | none => dflt

/-- The byte count `num_runs * sizeof(double)` as a `size_t`. -/
def times_bytes (num_runs : Int) : Nat :=
  ((num_runs % (SIZE_MOD : Int)).toNat * 8) % SIZE_MOD

/-! ### parallel_region -/

/-- Variables of `main` in `parallel_region.c`, the global `dummy_sum`, the number of
clock readings taken and the observable actions so far.  `times = none` is `NULL`. -/
structure PRState (α : Type) where
  x : List α
  y : List α
  z : List α
  times : Option (List α)
  total_time : α
  dummy_sum : α
  ticks : Nat
  events : List (Event α)

/-- A kernel of the registry: invocation id, then `(x, y, z, n)`; returns `(y, z)`. -/
abbrev PRKernel (α : Type) := Nat → List α → List α → List α → Nat → List α × List α

/-- The array `versions[]` of `parallel_region/omp/parallel_region.c`. -/
def pr_versions (L : Libm α) (env : Env α) : List (String × PRKernel α) :=
  [("seq", fun _ x y z n => process_sequential L x y z n),
   ("ingenua", fun id x y z n => process_ingenua L (env.sched id 0 n) (env.sched id 1 n) x y z),
   ("arrumada", fun id x y z n => process_arrumada L (env.sched id 0 n) (env.sched id 1 n) x y z)]

/-- The two `memset` calls that open a repetition. -/
def pr_reset (n : Nat) (s : PRState α) : PRState α :=
  { s with y := List.replicate n 0, z := List.replicate n 0 }

/-- The timed call `start = get_time(); fn(x, y, z, n); end = get_time();` on the buffers
as they stand: returns the state after the call and `end - start`.  The number of clock
readings taken so far identifies the invocation to the schedule oracle. -/
def pr_timed_call (env : Env α) (fn : PRKernel α) (n : Nat) (s : PRState α) : PRState α × α :=
  let start := get_time env s.ticks
  let yz := fn s.ticks s.x s.y s.z n
  let end_ := get_time env (s.ticks + 1)
  ({ s with y := yz.1, z := yz.2, ticks := s.ticks + 2 }, end_ - start)

/-- Body of the loop `for (int run = 0; run < num_runs; run++)` of both
`parallel_region.c` drivers.  The fuel `n + 1` lets `use_results` finish whenever its
index does not wrap; writing `times[run]` through `NULL` is undefined. -/
def pr_rep (env : Env α) (fn : PRKernel α) (n : Nat) (s : PRState α) (run : Nat) :
    Option (PRState α) :=
  let sd := pr_timed_call env fn n (pr_reset n s)
  match use_results (n + 1) sd.1.y sd.1.z n with
  | none => none
  | some u =>
    match sd.1.times with
    | none => none
    | some t =>
      let t1 := t.set run sd.2
      some { sd.1 with
        dummy_sum := sd.1.dummy_sum + u
        events := sd.1.events ++ [Event.volatile_store (sd.1.dummy_sum + u)]
        times := some t1
        total_time := sd.1.total_time + t1.getD run 0 }

/-- The loop `for (int run = 0; run < num_runs; run++)` run for `R` repetitions. -/
def pr_run_loop (env : Env α) (fn : PRKernel α) (n : Nat) (R : Nat) (s : PRState α) :
    Option (PRState α) :=
  (List.range R).foldlM (pr_rep env fn n) s

/-- Body of the loop over `v` in `parallel_region/omp/parallel_region.c`.  The
`variance` loop reads `times` only when `num_runs >= 1`, and then the repetitions have
already written through it. -/
def pr_run_variant (L : Libm α) (env : Env α) (n : Nat) (num_threads num_runs : Int)
    (s : PRState α) (v : Nat) : Option (PRState α) :=
  match (pr_versions L env).get? v with
  | none => none
  | some nf =>
    match pr_run_loop env nf.2 n num_runs.toNat { s with total_time := 0 } with
    | none => none
    | some s1 =>
      let ms := mean_stddev L (s1.times.getD []) s1.total_time num_runs
      let effective_threads : Int := if v = 0 then 1 else num_threads
      some { s1 with
        events := s1.events ++ [Event.printf ⟨nf.1, n, effective_threads, ms.1, ms.2⟩] }

/-- State of `parallel_region/omp` when the loop over `v` starts. -/
def pr_omp_init (env : Env α) (n : Nat) (num_runs : Int) (seed : Nat) : PRState α :=
  { x := init_vector env (List.replicate n env.junk) n seed
    y := List.replicate n env.junk
    z := List.replicate n env.junk
    times := if env.malloc_ok 3 (times_bytes num_runs)
      then some (List.replicate num_runs.toNat env.junk) else none
    total_time := 0
    dummy_sum := 0
    ticks := 0
    events := [] }

/-- Function `main` of `parallel_region/omp/parallel_region.c`.  The call
`omp_set_num_threads` and the `free` calls change nothing this embedding observes.  Past
the allocation test, `n * 8 >= 2^64` means the buffers are shorter than `n` elements and
`init_vector` writes past them. -/
def pr_omp_main (L : Libm α) (env : Env α) (args : List Int) : Outcome α :=
  let n := arg_size_t args 0 1000000
  let num_threads := arg_int args 1 4
  let num_runs := arg_int args 2 5
  let seed := arg_unsigned args 3 42
  let version := arg_int args 4 (-1)
  let num_versions : Int := (pr_versions L env).length
  let x_ok := env.malloc_ok 0 (n * 8 % SIZE_MOD)
  let y_ok := env.malloc_ok 1 (n * 8 % SIZE_MOD)
  let z_ok := env.malloc_ok 2 (n * 8 % SIZE_MOD)
  if !x_ok || !y_ok || !z_ok then
    Outcome.exit 1 [Event.fprintf_stderr "Erro ao alocar memória\n"]
  else if SIZE_MOD ≤ n * 8 then Outcome.undefined
  else
    match (version_range version num_versions).foldlM
        (pr_run_variant L env n num_threads num_runs) (pr_omp_init env n num_runs seed) with
    | none => Outcome.undefined
    | some s => Outcome.exit 0 s.events

/-- Function `main` of `parallel_region/sequencial/parallel_region.c`; `double times[num_runs]` is
a variable-length array, undefined for `num_runs <= 0`. -/
def pr_seq_main (L : Libm α) (env : Env α) (args : List Int) : Outcome α :=
  let n := arg_size_t args 0 1000000
  let num_runs := arg_int args 1 5
  let seed := arg_unsigned args 2 42
  let x_ok := env.malloc_ok 0 (n * 8 % SIZE_MOD)
  let y_ok := env.malloc_ok 1 (n * 8 % SIZE_MOD)
  let z_ok := env.malloc_ok 2 (n * 8 % SIZE_MOD)
  if !x_ok || !y_ok || !z_ok then
    Outcome.exit 1 [Event.fprintf_stderr "Erro ao alocar memória\n"]
  else if SIZE_MOD ≤ n * 8 then Outcome.undefined
  else if num_runs ≤ 0 then Outcome.undefined
  else
    let s0 : PRState α :=
      { x := init_vector env (List.replicate n env.junk) n seed
        y := List.replicate n env.junk
        z := List.replicate n env.junk
        times := some (List.replicate num_runs.toNat env.junk)
        total_time := 0
        dummy_sum := 0
        ticks := 0
        events := [] }
    match pr_run_loop env (fun _ x y z n => process_sequential L x y z n) n num_runs.toNat s0 with
    | none => Outcome.undefined
    | some s1 =>
      let ms := mean_stddev L (s1.times.getD []) s1.total_time num_runs
      Outcome.exit 0 (s1.events ++ [Event.printf ⟨"seq", n, 1, ms.1, ms.2⟩])

/-! ### saxpy -/

/-- Variables of `main` in `saxpy.c`, the number of clock readings taken and the
observable actions so far.  The file has no global variable. -/
structure SaxpyState (α : Type) where
  x : List α
  y : List α
  y_backup : List α
  times : Option (List α)
  total_time : α
  ticks : Nat
  events : List (Event α)

/-- A kernel of the registry: invocation id, then `(a, x, y, n)`; returns `y`. -/
abbrev SaxpyKernel (α : Type) := Nat → α → List α → List α → Nat → List α

/-- The array `versions[]` of `saxpy/omp/saxpy.c`. -/
def saxpy_versions (env : Env α) : List (String × SaxpyKernel α) :=
  [("seq", fun _ a x y n => saxpy_seq a x y n),
   ("simd", fun id a x y n => saxpy_simd a (env.sched id 0 n) x y),
   ("parallel_simd", fun id a x y n => saxpy_parallel_simd a (env.sched id 0 n) x y)]

/-- The `memcpy(y, y_backup, n * sizeof(float))` that opens a repetition. -/
def saxpy_restore (s : SaxpyState α) : SaxpyState α :=
  { s with y := s.y_backup }

/-- The timed call `start = get_time(); fn(a, x, y, n); end = get_time();`. -/
def saxpy_timed_call (env : Env α) (fn : SaxpyKernel α) (a : α) (n : Nat) (s : SaxpyState α) :
    SaxpyState α × α :=
  let start := get_time env s.ticks
  let y1 := fn s.ticks a s.x s.y n
  let end_ := get_time env (s.ticks + 1)
  ({ s with y := y1, ticks := s.ticks + 2 }, end_ - start)

/-- Body of the loop `for (int run = 0; run < num_runs; run++)` of both `saxpy.c`
drivers. -/
def saxpy_rep (env : Env α) (fn : SaxpyKernel α) (a : α) (n : Nat) (s : SaxpyState α)
    (run : Nat) : Option (SaxpyState α) :=
  let sd := saxpy_timed_call env fn a n (saxpy_restore s)
  match sd.1.times with
  | none => none
  | some t =>
    let t1 := t.set run sd.2
    some { sd.1 with
      times := some t1
      total_time := sd.1.total_time + t1.getD run 0 }

/-- The loop `for (int run = 0; run < num_runs; run++)` run for `R` repetitions. -/
def saxpy_run_loop (env : Env α) (fn : SaxpyKernel α) (a : α) (n : Nat) (R : Nat)
    (s : SaxpyState α) : Option (SaxpyState α) :=
  (List.range R).foldlM (saxpy_rep env fn a n) s

/-- Body of the loop over `v` in `saxpy/omp/saxpy.c`. -/
def saxpy_run_variant (L : Libm α) (env : Env α) (a : α) (n : Nat) (num_threads num_runs : Int)
    (s : SaxpyState α) (v : Nat) : Option (SaxpyState α) :=
  match (saxpy_versions env).get? v with
  | none => none
  | some nf =>
    match saxpy_run_loop env nf.2 a n num_runs.toNat { s with total_time := 0 } with
    | none => none
    | some s1 =>
      let ms := mean_stddev L (s1.times.getD []) s1.total_time num_runs
      let effective_threads : Int := if v = 2 then num_threads else 1
      some { s1 with
        events := s1.events ++ [Event.printf ⟨nf.1, n, effective_threads, ms.1, ms.2⟩] }

/-- State of a `saxpy` driver after `init_vectors` and the `memcpy` into `y_backup`,
with the given `times`. -/
def saxpy_init (env : Env α) (n : Nat) (seed : Nat) (times : Option (List α)) : SaxpyState α :=
  let xy := init_vectors env (List.replicate n env.junk) (List.replicate n env.junk) n seed
  { x := xy.1
    y := xy.2
    y_backup := xy.2
    times := times
    total_time := 0
    ticks := 0
    events := [] }

/-- Function `main` of `saxpy/omp/saxpy.c`, with `a = 2.5f` and `sizeof(float) = 4`. -/
def saxpy_omp_main (L : Libm α) (env : Env α) (args : List Int) : Outcome α :=
  let n := arg_size_t args 0 1000000
  let num_threads := arg_int args 1 4
  let num_runs := arg_int args 2 5
  let seed := arg_unsigned args 3 42
  let version := arg_int args 4 (-1)
  let num_versions : Int := (saxpy_versions env).length
  let x_ok := env.malloc_ok 0 (n * 4 % SIZE_MOD)
  let y_ok := env.malloc_ok 1 (n * 4 % SIZE_MOD)
  let y_backup_ok := env.malloc_ok 2 (n * 4 % SIZE_MOD)
  if !x_ok || !y_ok || !y_backup_ok then
    Outcome.exit 1 [Event.fprintf_stderr "Erro ao alocar memória\n"]
  else if SIZE_MOD ≤ n * 4 then Outcome.undefined
  else
    let a : α := 5 / 2
    let times := if env.malloc_ok 3 (times_bytes num_runs)
      then some (List.replicate num_runs.toNat env.junk) else none
    match (version_range version num_versions).foldlM
        (saxpy_run_variant L env a n num_threads num_runs) (saxpy_init env n seed times) with
    | none => Outcome.undefined
    | some s => Outcome.exit 0 s.events

/-- Function `main` of `saxpy/seq/saxpy.c`; `double times[num_runs]` is a variable-length array,
undefined for `num_runs <= 0`. -/
def saxpy_seq_main (L : Libm α) (env : Env α) (args : List Int) : Outcome α :=
  let n := arg_size_t args 0 1000000
  let num_runs := arg_int args 1 5
  let seed := arg_unsigned args 2 42
  let x_ok := env.malloc_ok 0 (n * 4 % SIZE_MOD)
  let y_ok := env.malloc_ok 1 (n * 4 % SIZE_MOD)
  let y_backup_ok := env.malloc_ok 2 (n * 4 % SIZE_MOD)
  if !x_ok || !y_ok || !y_backup_ok then
    Outcome.exit 1 [Event.fprintf_stderr "Erro ao alocar memória\n"]
  else if SIZE_MOD ≤ n * 4 then Outcome.undefined
  else if num_runs ≤ 0 then Outcome.undefined
  else
    let a : α := 5 / 2
    let s0 := saxpy_init env n seed (some (List.replicate num_runs.toNat env.junk))
    match saxpy_run_loop env (fun _ a x y n => saxpy_seq a x y n) a n num_runs.toNat s0 with
    | none => Outcome.undefined
    | some s1 =>
      let ms := mean_stddev L (s1.times.getD []) s1.total_time num_runs
      Outcome.exit 0 (s1.events ++ [Event.printf ⟨"seq", n, 1, ms.1, ms.2⟩])

/-- The durations `end - start` of `R` repetitions that start at clock reading `c`. -/
def durations (env : Env α) (c R : Nat) : List α :=
  (List.range R).map (fun k => env.clock (c + 2 * k + 1) - env.clock (c + 2 * k))

/-- The sum `use_results` returns when its index does not wrap: `y[i] + z[i]` summed
over `i = 0, s, 2s, ... < n`, `s = n/100 + 1`. -/
def subsample_sum (y z : List α) (n : Nat) : α :=
  ((List.range ((n + (n / 100 + 1) - 1) / (n / 100 + 1))).map
    (fun k => k * (n / 100 + 1))).foldl (fun sum i => sum + (y.getD i 0 + z.getD i 0)) 0

/-- Arithmetic mean of a sequence of durations, in the words of the specification. -/
def spec_mean (t : List α) : α := t.sum / (t.length : α)

/-- Sample standard deviation with the `n - 1` denominator, `0` for fewer than two
samples, in the words of the specification. -/
def spec_stddev (sqrt : α → α) (t : List α) : α :=
  if 1 < t.length then
    sqrt ((t.map (fun d => (d - spec_mean t) * (d - spec_mean t))).sum / ((t.length : α) - 1))
  else 0

/-- Number of elements the buffer `times` can hold (`0` for `NULL`). -/
def capacity (times : Option (List α)) : Nat :=
  match times with
  | some t => t.length
  | none => 0

/-- What one repetition of a `parallel_region` variant adds to `dummy_sum` on the input
`x`: the subsample of the output of the kernel run on zeroed `y` and `z`. -/
def pr_sentinel (L : Libm α) (x : List α) (n : Nat) : α :=
  subsample_sum (process_sequential L x (List.replicate n 0) (List.replicate n 0) n).1
    (process_sequential L x (List.replicate n 0) (List.replicate n 0) n).2 n

/-- A sample environment: the clock reads `k * k` seconds at its `k`-th reading, `malloc`
serves requests below `limit` bytes, and loop iterations run in descending order. -/
def sample_env (α : Type) [Field α] (limit : Nat) : Env α :=
  { RAND_MAX := 2147483647
    rand := fun seed k => (seed * 1103515245 + 12345 * (k + 1)) % 2147483648
    clock := fun k => (k : α) * (k : α)
    malloc_ok := fun _ size => decide (size < limit)
    junk := 0
    sched := fun _ _ n => ⟨(List.range n).reverse, List.reverse_perm _⟩ }

/-- A `Libm` of placeholders over any field, for running the drivers on samples. -/
def sample_libm (α : Type) [Field α] : Libm α :=
  { sin := fun x => x, cos := fun x => x, sqrt := fun x => x, log := fun x => x, exp := fun x => x }

end Drivers

/-! ## Loops writing one index per iteration -/

section LoopLemmas

variable {α : Type} [Field α]

theorem foldl_set_length (h : Nat → α → α) (l : List Nat) (y : List α) :
    (l.foldl (fun st i => st.set i (h i (st.getD i 0))) y).length = y.length := by
  induction l generalizing y with
  | nil => rfl
  | cons a l ih => rw [List.foldl_cons, ih, List.length_set]

theorem getD_set_ne (y : List α) (a j : Nat) (v : α) (hja : j ≠ a) :
    (y.set a v).getD j 0 = y.getD j 0 := by
  simp [List.getD_eq_getElem?_getD, List.getElem?_set, Ne.symm hja]

theorem getD_set_self (y : List α) (a : Nat) (v : α) (hlen : a < y.length) :
    (y.set a v).getD a 0 = v := by
  simp [List.getD_eq_getElem?_getD, List.getElem?_set, hlen]

theorem getD_of_length_le (y : List α) (j : Nat) (hlen : y.length ≤ j) :
    y.getD j 0 = 0 := by
  simp [List.getD_eq_getElem?_getD, List.getElem?_eq_none hlen]

theorem foldl_set_getD (h : Nat → α → α) (l : List Nat) (hl : l.Nodup) (y : List α) (j : Nat) :
    (l.foldl (fun st i => st.set i (h i (st.getD i 0))) y).getD j 0
      = if j ∈ l ∧ j < y.length then h j (y.getD j 0) else y.getD j 0 := by
  induction l generalizing y with
  | nil => simp
  | cons a l ih =>
    rw [List.nodup_cons] at hl
    rw [List.foldl_cons, ih hl.2, List.length_set]
    by_cases hja : j = a
    · subst hja
      by_cases hlen : j < y.length
      · rw [if_neg (fun hh => hl.1 hh.1), if_pos ⟨List.mem_cons_self _ _, hlen⟩,
          getD_set_self y j _ hlen]
      · rw [if_neg (fun hh => hl.1 hh.1), if_neg (fun hh => hlen hh.2),
          getD_of_length_le _ _ (by rw [List.length_set]; omega),
          getD_of_length_le _ _ (by omega)]
    · rw [getD_set_ne y a j _ hja]
      have hmem : j ∈ a :: l ↔ j ∈ l := by simp [hja]
      simp only [hmem]

theorem list_eq_of_getD (l1 l2 : List α) (hlen : l1.length = l2.length)
    (h : ∀ j, l1.getD j 0 = l2.getD j 0) : l1 = l2 := by
  apply List.ext_getElem hlen
  intro j h1 h2
  have := h j
  rwa [List.getD_eq_getElem _ _ h1, List.getD_eq_getElem _ _ h2] at this

/-- A loop whose iteration `i` rewrites only `y[i]`, from the old `y[i]`, gives the
same buffer in every order that runs each iteration once. -/
theorem foldl_set_perm (h : Nat → α → α) (l1 l2 : List Nat) (hp : l1.Perm l2)
    (hn : l2.Nodup) (y : List α) :
    l1.foldl (fun st i => st.set i (h i (st.getD i 0))) y
      = l2.foldl (fun st i => st.set i (h i (st.getD i 0))) y := by
  apply list_eq_of_getD
  · rw [foldl_set_length, foldl_set_length]
  · intro j
    rw [foldl_set_getD h l1 (hp.nodup_iff.mpr hn), foldl_set_getD h l2 hn]
    simp only [hp.mem_iff]

theorem omp_for_eq_for_range {n : Nat} (sched : Schedule n) (h : Nat → α → α) (y : List α) :
    omp_for sched (fun i st => st.set i (h i (st.getD i 0))) y
      = for_range n (fun i st => st.set i (h i (st.getD i 0))) y :=
  foldl_set_perm h sched.order (List.range n) sched.perm (List.nodup_range n) y

theorem process_ingenua_eq (L : Libm α) {n : Nat} (s1 s2 : Schedule n) (x y z : List α) :
    process_ingenua L s1 s2 x y z = process_sequential L x y z n := by
  unfold process_ingenua process_sequential
  have h1 := omp_for_eq_for_range s1
    (fun i _ => L.sin (x.getD i 0) * L.cos (x.getD i 0) + L.sqrt (x.getD i 0)) y
  simp only [] at h1 ⊢
  rw [h1]
  have h2 := fun y1 : List α => omp_for_eq_for_range s2
    (fun i _ => L.log (y1.getD i 0 + 1) * L.exp (-(y1.getD i 0) * (1 / 100))) z
  simp only [] at h2
  rw [h2]

theorem process_arrumada_eq (L : Libm α) {n : Nat} (s1 s2 : Schedule n) (x y z : List α) :
    process_arrumada L s1 s2 x y z = process_sequential L x y z n :=
  process_ingenua_eq L s1 s2 x y z

theorem saxpy_simd_eq (a : α) {n : Nat} (s : Schedule n) (x y : List α) :
    saxpy_simd a s x y = saxpy_seq a x y n :=
  omp_for_eq_for_range s (fun i v => a * x.getD i 0 + v) y

theorem saxpy_parallel_simd_eq (a : α) {n : Nat} (s : Schedule n) (x y : List α) :
    saxpy_parallel_simd a s x y = saxpy_seq a x y n :=
  omp_for_eq_for_range s (fun i v => a * x.getD i 0 + v) y

end LoopLemmas

/-! ## The strided loop of `use_results` -/

section UseResults

/-- The number of indices `i, i + stride, ...` below `n`, counted from `i + stride`. -/
theorem strided_count_step (n i stride : Nat) (hs : 0 < stride) (hi : i < n) :
    (n - i + stride - 1) / stride = (n - (i + stride) + stride - 1) / stride + 1 := by
  by_cases h : i + stride ≤ n
  · have : n - i + stride - 1 = (n - (i + stride) + stride - 1) + stride := by omega
    rw [this, Nat.add_div_right _ hs]
  · have h0 : n - (i + stride) + stride - 1 = stride - 1 := by omega
    rw [h0, Nat.div_eq_of_lt (by omega : stride - 1 < stride)]
    have h1 : n - i + stride - 1 = (n - i - 1) + stride := by omega
    rw [h1, Nat.add_div_right _ hs, Nat.div_eq_of_lt (by omega : n - i - 1 < stride)]

theorem use_results_for_eq {σ : Type} (n : Nat) (body : Nat → σ → σ)
    (hn : n + n / 100 + 1 < SIZE_MOD) (fuel i : Nat) (s : σ) (hfuel : n - i < fuel) :
    use_results_for n body fuel i s
      = some (((List.range ((n - i + (n / 100 + 1) - 1) / (n / 100 + 1))).map
          (fun k => i + k * (n / 100 + 1))).foldl (fun st j => body j st) s) := by
  induction fuel generalizing i s with
  | zero => omega
  | succ fuel ih =>
    unfold use_results_for
    by_cases hi : i < n
    · rw [if_pos hi, Nat.mod_eq_of_lt (by omega : i + (n / 100 + 1) < SIZE_MOD),
        ih _ _ (by omega), strided_count_step n i (n / 100 + 1) (by omega) hi,
        List.range_succ_eq_map, List.map_cons, List.foldl_cons, List.map_map]
      congr 2
      · simp
      · apply List.map_congr_left
        intro k _
        simp only [Function.comp, Nat.succ_eq_add_one]
        rw [Nat.add_mul]; omega
    · rw [if_neg hi]
      have : (n - i + (n / 100 + 1) - 1) / (n / 100 + 1) = 0 := by
        apply Nat.div_eq_of_lt; omega
      rw [this]; rfl

theorem strided_count_le (n : Nat) : (n + (n / 100 + 1) - 1) / (n / 100 + 1) ≤ 100 := by
  have h : (n + (n / 100 + 1) - 1) / (n / 100 + 1) < 101 := by
    rw [Nat.div_lt_iff_lt_mul (by omega)]
    omega
  omega

theorem strided_index_lt (n k : Nat) (hk : k < (n + (n / 100 + 1) - 1) / (n / 100 + 1)) :
    k * (n / 100 + 1) < n := by
  have h1 : (k + 1) * (n / 100 + 1) ≤ (n + (n / 100 + 1) - 1) / (n / 100 + 1) * (n / 100 + 1) :=
    Nat.mul_le_mul_right _ hk
  have h2 := Nat.div_mul_le_self (n + (n / 100 + 1) - 1) (n / 100 + 1)
  rw [Nat.add_mul] at h1
  omega

end UseResults

/-! ## Closed forms of the kernels -/

section ClosedForms

variable {α : Type} [Field α]

theorem for_range_set_getD (h : Nat → α → α) (n : Nat) (y : List α) (j : Nat) :
    (for_range n (fun i st => st.set i (h i (st.getD i 0))) y).getD j 0
      = if j < n ∧ j < y.length then h j (y.getD j 0) else y.getD j 0 := by
  unfold for_range
  rw [foldl_set_getD h (List.range n) (List.nodup_range n) y j]
  simp only [List.mem_range]

theorem for_range_set_length (h : Nat → α → α) (n : Nat) (y : List α) :
    (for_range n (fun i st => st.set i (h i (st.getD i 0))) y).length = y.length :=
  foldl_set_length h (List.range n) y

theorem process_sequential_fst_getD (L : Libm α) (x y z : List α) (n j : Nat) :
    (process_sequential L x y z n).1.getD j 0
      = if j < n ∧ j < y.length
        then L.sin (x.getD j 0) * L.cos (x.getD j 0) + L.sqrt (x.getD j 0)
        else y.getD j 0 :=
  for_range_set_getD
    (fun i _ => L.sin (x.getD i 0) * L.cos (x.getD i 0) + L.sqrt (x.getD i 0)) n y j

theorem process_sequential_snd_getD (L : Libm α) (x y z : List α) (n j : Nat) :
    (process_sequential L x y z n).2.getD j 0
      = if j < n ∧ j < z.length
        then L.log ((process_sequential L x y z n).1.getD j 0 + 1)
          * L.exp (-((process_sequential L x y z n).1.getD j 0) * (1 / 100))
        else z.getD j 0 :=
  for_range_set_getD
    (fun i _ => L.log ((process_sequential L x y z n).1.getD i 0 + 1)
      * L.exp (-((process_sequential L x y z n).1.getD i 0) * (1 / 100))) n z j

theorem init_vector_getD (env : Env α) (x : List α) (n seed j : Nat) :
    (init_vector env x n seed).getD j 0
      = if j < n ∧ j < x.length then init_value env.RAND_MAX (env.rand seed j)
        else x.getD j 0 :=
  for_range_set_getD (fun i _ => init_value env.RAND_MAX (env.rand seed i)) n x j

theorem pr_versions_eq (L : Libm α) (env : Env α) (nf : String × PRKernel α)
    (h : nf ∈ pr_versions L env) (id : Nat) (x y z : List α) (n : Nat) :
    nf.2 id x y z n = process_sequential L x y z n := by
  unfold pr_versions at h
  simp only [List.mem_cons, List.mem_singleton, List.not_mem_nil, or_false] at h
  rcases h with rfl | rfl | rfl
  · rfl
  · exact process_ingenua_eq L _ _ x y z
  · exact process_arrumada_eq L _ _ x y z

theorem saxpy_versions_eq (env : Env α) (nf : String × SaxpyKernel α)
    (h : nf ∈ saxpy_versions env) (id : Nat) (a : α) (x y : List α) (n : Nat) :
    nf.2 id a x y n = saxpy_seq a x y n := by
  unfold saxpy_versions at h
  simp only [List.mem_cons, List.mem_singleton, List.not_mem_nil, or_false] at h
  rcases h with rfl | rfl | rfl
  · rfl
  · exact saxpy_simd_eq a _ x y
  · exact saxpy_parallel_simd_eq a _ x y

end ClosedForms

/-! ## The kernels over the reals -/

section RealKernels

theorem init_value_bounds (RAND_MAX r : Nat) (hR : 0 < RAND_MAX) (hr : r ≤ RAND_MAX) :
    (1 / 10 : ℝ) ≤ init_value RAND_MAX r ∧ (init_value RAND_MAX r : ℝ) ≤ 10 := by
  unfold init_value
  have hR0 : (0 : ℝ) < (RAND_MAX : ℝ) := by exact_mod_cast hR
  have hr0 : (0 : ℝ) ≤ (r : ℝ) := Nat.cast_nonneg r
  have hrR : (r : ℝ) ≤ (RAND_MAX : ℝ) := by exact_mod_cast hr
  have h1 : (0 : ℝ) ≤ 99 / 10 * (r : ℝ) / (RAND_MAX : ℝ) := by positivity
  have h2 : 99 / 10 * (r : ℝ) / (RAND_MAX : ℝ) ≤ 99 / 10 := by
    rw [div_le_iff₀ hR0]
    nlinarith
  constructor <;> linarith

theorem loop1_value_nonneg (x : ℝ) (hx : 0 ≤ x) :
    0 ≤ Real.sin x * Real.cos x + Real.sqrt x := by
  have hsqrt : 0 ≤ Real.sqrt x := Real.sqrt_nonneg x
  by_cases h1 : x ≤ 1
  · have hpi := Real.pi_gt_three
    have hs : 0 ≤ Real.sin x := Real.sin_nonneg_of_nonneg_of_le_pi hx (by linarith)
    have hc : 0 ≤ Real.cos x :=
      Real.cos_nonneg_of_neg_pi_div_two_le_of_le (by linarith) (by linarith)
    have := mul_nonneg hs hc
    linarith
  · have h2 : 1 ≤ Real.sqrt x := by
      rw [Real.one_le_sqrt]; linarith
    have h3 : -1 / 2 ≤ Real.sin x * Real.cos x := by
      nlinarith [Real.sin_sq_add_cos_sq x, sq_nonneg (Real.sin x + Real.cos x)]
    linarith

theorem loop2_value_nonneg (y : ℝ) (hy : 0 ≤ y) :
    0 ≤ Real.log (y + 1) * Real.exp (-y * (1 / 100)) :=
  mul_nonneg (Real.log_nonneg (by linarith)) (Real.exp_pos _).le

theorem getD_mem_or_zero {α : Type} [Field α] (x : List α) (j : Nat) :
    x.getD j 0 ∈ x ∨ x.getD j 0 = 0 := by
  by_cases h : j < x.length
  · left
    rw [List.getD_eq_getElem _ _ h]
    exact List.getElem_mem h
  · right
    exact getD_of_length_le x j (by omega)

theorem getD_nonneg_of_domain (x : List ℝ) (hx : ∀ v ∈ x, 1 / 10 ≤ v ∧ v ≤ 10) (j : Nat) :
    0 ≤ x.getD j 0 := by
  rcases getD_mem_or_zero x j with h | h
  · have := (hx _ h).1
    linarith
  · rw [h]

theorem process_sequential_real_nonneg (x y z : List ℝ) (n : Nat)
    (hx : ∀ v ∈ x, 1 / 10 ≤ v ∧ v ≤ 10) (j : Nat) (hj : j < n) :
    0 ≤ (process_sequential (Libm.mk Real.sin Real.cos Real.sqrt Real.log Real.exp)
          x y z n).1.getD j 0
    ∧ 0 ≤ (process_sequential (Libm.mk Real.sin Real.cos Real.sqrt Real.log Real.exp)
          x y z n).2.getD j 0 := by
  have hy : 0 ≤ (process_sequential (Libm.mk Real.sin Real.cos Real.sqrt Real.log Real.exp)
      x y z n).1.getD j 0 := by
    rw [process_sequential_fst_getD]
    by_cases hl : j < y.length
    · rw [if_pos ⟨hj, hl⟩]
      exact loop1_value_nonneg _ (getD_nonneg_of_domain x hx j)
    · rw [if_neg (fun hh => hl hh.2), getD_of_length_le y j (by omega)]
  refine ⟨hy, ?_⟩
  rw [process_sequential_snd_getD]
  by_cases hl : j < z.length
  · rw [if_pos ⟨hj, hl⟩]
    exact loop2_value_nonneg _ hy
  · rw [if_neg (fun hh => hl hh.2), getD_of_length_le z j (by omega)]

theorem foldl_add_nonneg (f : Nat → ℝ) (l : List Nat) (hf : ∀ i ∈ l, 0 ≤ f i) (acc : ℝ)
    (hacc : 0 ≤ acc) : 0 ≤ l.foldl (fun sum i => sum + f i) acc := by
  induction l generalizing acc with
  | nil => exact hacc
  | cons a l ih =>
    rw [List.foldl_cons]
    apply ih (fun i hi => hf i (List.mem_cons_of_mem _ hi))
    have := hf a (List.mem_cons_self _ _)
    linarith

end RealKernels

/-! ## The repetition loop of `parallel_region` -/

section PRLoop

variable {α : Type} [Field α]

theorem size_bound_of_bytes (n : Nat) (hn : n * 8 < SIZE_MOD) : n + n / 100 + 1 < SIZE_MOD := by
  unfold SIZE_MOD at *
  omega

theorem use_results_eq (y z : List α) (n : Nat) (hn : n + n / 100 + 1 < SIZE_MOD) :
    use_results (n + 1) y z n = some (subsample_sum y z n) := by
  unfold use_results subsample_sum
  rw [use_results_for_eq n _ hn (n + 1) 0 0 (by omega)]
  simp

theorem durations_succ (env : Env α) (c R : Nat) :
    durations env c (R + 1)
      = durations env c R ++ [env.clock (c + 2 * R + 1) - env.clock (c + 2 * R)] := by
  unfold durations
  rw [List.range_succ, List.map_append, List.map_singleton]

theorem durations_length (env : Env α) (c R : Nat) : (durations env c R).length = R := by
  unfold durations
  rw [List.length_map, List.length_range]

theorem durations_getD (env : Env α) (c R j : Nat) (hj : j < R) :
    (durations env c R).getD j 0 = env.clock (c + 2 * j + 1) - env.clock (c + 2 * j) := by
  unfold durations
  rw [List.getD_eq_getElem _ _ (by simpa using hj)]
  simp

/-- One repetition, on a state whose `times` is not `NULL`, for a kernel that computes
what `process_sequential` computes. -/
theorem pr_rep_eq (L : Libm α) (env : Env α) (fn : PRKernel α) (n : Nat)
    (hfn : ∀ id x y z, fn id x y z n = process_sequential L x y z n)
    (hn : n + n / 100 + 1 < SIZE_MOD) (s : PRState α) (t : List α) (ht : s.times = some t)
    (run : Nat) :
    pr_rep env fn n s run = some
      { x := s.x
        y := (process_sequential L s.x (List.replicate n 0) (List.replicate n 0) n).1
        z := (process_sequential L s.x (List.replicate n 0) (List.replicate n 0) n).2
        times := some (t.set run (env.clock (s.ticks + 1) - env.clock s.ticks))
        total_time := s.total_time
          + (t.set run (env.clock (s.ticks + 1) - env.clock s.ticks)).getD run 0
        dummy_sum := s.dummy_sum + subsample_sum
          (process_sequential L s.x (List.replicate n 0) (List.replicate n 0) n).1
          (process_sequential L s.x (List.replicate n 0) (List.replicate n 0) n).2 n
        ticks := s.ticks + 2
        events := s.events ++ [Event.volatile_store (s.dummy_sum + subsample_sum
          (process_sequential L s.x (List.replicate n 0) (List.replicate n 0) n).1
          (process_sequential L s.x (List.replicate n 0) (List.replicate n 0) n).2 n)] } := by
  unfold pr_rep pr_timed_call pr_reset get_time
  simp only [hfn, use_results_eq _ _ n hn, ht]

theorem pr_run_loop_succ (env : Env α) (fn : PRKernel α) (n R : Nat) (s : PRState α) :
    pr_run_loop env fn n (R + 1) s
      = (pr_run_loop env fn n R s).bind (fun sR => pr_rep env fn n sR R) := by
  unfold pr_run_loop
  rw [List.range_succ, List.foldlM_append]
  simp [List.foldlM]

/-- State after `R` repetitions of one variant. -/
theorem pr_run_loop_spec (L : Libm α) (env : Env α) (fn : PRKernel α) (n : Nat)
    (hfn : ∀ id x y z, fn id x y z n = process_sequential L x y z n)
    (hn : n + n / 100 + 1 < SIZE_MOD) (s : PRState α) (t : List α) (ht : s.times = some t)
    (R : Nat) (hR : R ≤ t.length) :
    ∃ sR tR, pr_run_loop env fn n R s = some sR
      ∧ sR.x = s.x
      ∧ sR.ticks = s.ticks + 2 * R
      ∧ sR.times = some tR
      ∧ tR.length = t.length
      ∧ (∀ j, tR.getD j 0 = if j < R then (durations env s.ticks R).getD j 0 else t.getD j 0)
      ∧ sR.total_time = s.total_time + (durations env s.ticks R).sum
      ∧ sR.dummy_sum = s.dummy_sum + (R : α) * subsample_sum
          (process_sequential L s.x (List.replicate n 0) (List.replicate n 0) n).1
          (process_sequential L s.x (List.replicate n 0) (List.replicate n 0) n).2 n
      ∧ sR.events = s.events ++ (List.range R).map (fun (k : Nat) =>
          Event.volatile_store (s.dummy_sum + ((k : α) + 1) * subsample_sum
            (process_sequential L s.x (List.replicate n 0) (List.replicate n 0) n).1
            (process_sequential L s.x (List.replicate n 0) (List.replicate n 0) n).2 n))
      ∧ (0 < R → sR.y = (process_sequential L s.x (List.replicate n 0) (List.replicate n 0) n).1
          ∧ sR.z = (process_sequential L s.x (List.replicate n 0) (List.replicate n 0) n).2) := by
  induction R with
  | zero =>
    refine ⟨s, t, ?_, rfl, rfl, ht, rfl, ?_, ?_, ?_, ?_, ?_⟩
    · simp [pr_run_loop]
    · intro j; simp
    · simp [durations]
    · simp
    · simp
    · intro h; omega
  | succ R ih =>
    obtain ⟨sR, tR, hloop, hx, hticks, htimes, hlen, hget, htotal, hdummy, hev, _⟩ :=
      ih (by omega)
    rw [pr_run_loop_succ, hloop, Option.some_bind, pr_rep_eq L env fn n hfn hn sR tR htimes R]
    have hRlt : R < tR.length := by omega
    refine ⟨_, _, rfl, hx, ?_, rfl, ?_, ?_, ?_, ?_, ?_, ?_⟩
    · simp only [hticks]; omega
    · rw [List.length_set, hlen]
    · intro j
      by_cases hj : j = R
      · subst hj
        rw [getD_set_self _ _ _ hRlt, if_pos (by omega), durations_getD env _ _ _ (by omega),
          hticks]
      · rw [getD_set_ne _ _ _ _ hj, hget j]
        by_cases hjR : j < R
        · rw [if_pos hjR, if_pos (by omega), durations_getD env _ _ _ hjR,
            durations_getD env _ _ _ (by omega)]
        · rw [if_neg hjR, if_neg (by omega)]
    · simp only [getD_set_self _ _ _ hRlt, htotal, hticks, durations_succ, List.sum_append,
        List.sum_singleton, add_assoc]
    · simp only [hdummy, hx]
      push_cast
      rw [add_assoc, add_one_mul]
    · simp only [hev, hdummy, hx, List.range_succ, List.map_append, List.map_singleton,
        List.append_assoc]
      congr 3
      rw [add_assoc, add_one_mul]
    · intro _
      simp only [hx]
      exact ⟨trivial, trivial⟩

end PRLoop

/-! ## The statistics step -/

section Statistics

variable {α : Type} [Field α]

theorem foldl_add_eq_sum (g : Nat → α) (l : List Nat) (acc : α) :
    l.foldl (fun st i => st + g i) acc = acc + (l.map g).sum := by
  induction l generalizing acc with
  | nil => simp
  | cons a l ih => rw [List.foldl_cons, ih, List.map_cons, List.sum_cons, add_assoc]

theorem map_range_getD (D : List α) : (List.range D.length).map (fun j => D.getD j 0) = D := by
  apply List.ext_getElem
  · simp
  · intro j h1 h2
    rw [List.getElem_map, List.getElem_range, List.getD_eq_getElem _ _ h2]

/-- The statistics lines compute the mean and the sample standard deviation of the
recorded durations `D`, when `times[0 .. R-1]` holds `D` and `total_time` is their sum. -/
theorem mean_stddev_eq (L : Libm α) (t D : List α) (num_runs : Int) (hruns : 1 ≤ num_runs)
    (hlen : D.length = num_runs.toNat) (ht : ∀ j, j < D.length → t.getD j 0 = D.getD j 0) :
    mean_stddev L t D.sum num_runs = (spec_mean D, spec_stddev L.sqrt D) := by
  have hcast : (num_runs : α) = (D.length : α) := by
    rw [hlen]
    have : ((num_runs.toNat : Int) : α) = (num_runs : α) := by
      rw [Int.toNat_of_nonneg (by omega)]
    rw [← this, Int.cast_natCast]
  have hmean : D.sum / (num_runs : α) = spec_mean D := by
    unfold spec_mean
    rw [hcast]
  have hvar : for_range num_runs.toNat
      (fun i variance => variance + (t.getD i 0 - spec_mean D) * (t.getD i 0 - spec_mean D)) 0
      = (D.map (fun d => (d - spec_mean D) * (d - spec_mean D))).sum := by
    unfold for_range
    rw [foldl_add_eq_sum (fun i => (t.getD i 0 - spec_mean D) * (t.getD i 0 - spec_mean D)),
      zero_add, ← hlen]
    have h1 : (List.range D.length).map
        (fun i => (t.getD i 0 - spec_mean D) * (t.getD i 0 - spec_mean D))
        = ((List.range D.length).map (fun j => D.getD j 0)).map
          (fun d => (d - spec_mean D) * (d - spec_mean D)) := by
      rw [List.map_map]
      apply List.map_congr_left
      intro j hj
      simp only [Function.comp, ht j (List.mem_range.mp hj)]
    rw [h1, map_range_getD]
  unfold mean_stddev
  simp only [hmean, hvar]
  unfold spec_stddev
  have hiff : num_runs > 1 ↔ 1 < D.length := by omega
  by_cases h1 : num_runs > 1
  · rw [if_pos h1, if_pos (hiff.mp h1)]
    have : ((num_runs - 1 : Int) : α) = (D.length : α) - 1 := by
      push_cast
      rw [hcast]
    rw [this]
  · rw [if_neg h1, if_neg (fun h => h1 (hiff.mpr h))]

end Statistics

section PRLoopGeneral

variable {α : Type} [Field α]

/-- State after `R` repetitions, for `times` that holds at least `R` elements (`NULL`
allowed when `R = 0`). -/
theorem pr_run_loop_capacity (L : Libm α) (env : Env α) (fn : PRKernel α) (n : Nat)
    (hfn : ∀ id x y z, fn id x y z n = process_sequential L x y z n)
    (hn : n + n / 100 + 1 < SIZE_MOD) (s : PRState α) (R : Nat) (hR : R ≤ capacity s.times) :
    ∃ sR, pr_run_loop env fn n R s = some sR
      ∧ sR.x = s.x
      ∧ sR.ticks = s.ticks + 2 * R
      ∧ capacity sR.times = capacity s.times
      ∧ (∀ j, j < R → (sR.times.getD []).getD j 0 = (durations env s.ticks R).getD j 0)
      ∧ sR.total_time = s.total_time + (durations env s.ticks R).sum
      ∧ sR.dummy_sum = s.dummy_sum + (R : α) * pr_sentinel L s.x n
      ∧ sR.events = s.events ++ (List.range R).map (fun (k : Nat) =>
          Event.volatile_store (s.dummy_sum + ((k : α) + 1) * pr_sentinel L s.x n))
      ∧ (0 < R → sR.y = (process_sequential L s.x (List.replicate n 0) (List.replicate n 0) n).1
          ∧ sR.z = (process_sequential L s.x (List.replicate n 0) (List.replicate n 0) n).2) := by
  cases ht : s.times with
  | none =>
    rw [ht] at hR
    have hR0 : R = 0 := by simpa [capacity] using hR
    subst hR0
    refine ⟨s, ?_, rfl, rfl, ?_, ?_, ?_, ?_, ?_, ?_⟩
    · simp [pr_run_loop]
    · rw [ht]
    · intro j hj; omega
    · simp [durations]
    · simp
    · simp
    · intro h; omega
  | some t =>
    rw [ht] at hR
    obtain ⟨sR, tR, hloop, hx, hticks, htimes, hlen, hget, htotal, hdummy, hev, hyz⟩ :=
      pr_run_loop_spec L env fn n hfn hn s t ht R hR
    refine ⟨sR, hloop, hx, hticks, ?_, ?_, htotal, hdummy, hev, hyz⟩
    · rw [htimes]
      simpa [capacity] using hlen
    · intro j hj
      rw [htimes, Option.getD_some, hget j, if_pos hj]

theorem pr_versions_get (L : Libm α) (env : Env α) (v : Nat) (hv : v < 3) :
    ∃ nf, (pr_versions L env).get? v = some nf ∧ nf ∈ pr_versions L env
      ∧ nf.1 = ["seq", "ingenua", "arrumada"].getD v "" := by
  interval_cases v
  · exact ⟨_, rfl, by simp [pr_versions], rfl⟩
  · exact ⟨_, rfl, by simp [pr_versions], rfl⟩
  · exact ⟨_, rfl, by simp [pr_versions], rfl⟩

/-- One pass of the loop over `v`: the repetitions, then one record. -/
theorem pr_run_variant_spec (L : Libm α) (env : Env α) (n : Nat) (num_threads num_runs : Int)
    (hn : n * 8 < SIZE_MOD) (s : PRState α) (v : Nat) (hv : v < 3)
    (hcap : num_runs.toNat ≤ capacity s.times) :
    ∃ s1 r, pr_run_variant L env n num_threads num_runs s v = some s1
      ∧ s1.x = s.x
      ∧ s1.ticks = s.ticks + 2 * num_runs.toNat
      ∧ capacity s1.times = capacity s.times
      ∧ s1.dummy_sum = s.dummy_sum + (num_runs.toNat : α) * pr_sentinel L s.x n
      ∧ s1.events = s.events ++ (List.range num_runs.toNat).map (fun (k : Nat) =>
          Event.volatile_store (s.dummy_sum + ((k : α) + 1) * pr_sentinel L s.x n))
          ++ [Event.printf r]
      ∧ r.name = ["seq", "ingenua", "arrumada"].getD v ""
      ∧ r.n = n
      ∧ r.effective_threads = (if v = 0 then 1 else num_threads)
      ∧ (1 ≤ num_runs → r.mean = spec_mean (durations env s.ticks num_runs.toNat)
          ∧ r.stddev = spec_stddev L.sqrt (durations env s.ticks num_runs.toNat)) := by
  obtain ⟨nf, hget, hmem, hname⟩ := pr_versions_get L env v hv
  obtain ⟨sR, hloop, hx, hticks, hcap1, htimes, htotal, hdummy, hev, _⟩ :=
    pr_run_loop_capacity L env nf.2 n (fun id x y z => pr_versions_eq L env nf hmem id x y z n)
      (size_bound_of_bytes n hn) { s with total_time := 0 } num_runs.toNat hcap
  unfold pr_run_variant
  rw [hget]
  simp only [hloop]
  refine ⟨_, ⟨nf.1, n, if v = 0 then 1 else num_threads,
    (mean_stddev L (sR.times.getD []) sR.total_time num_runs).1,
    (mean_stddev L (sR.times.getD []) sR.total_time num_runs).2⟩,
    rfl, hx, hticks, hcap1, hdummy, ?_, hname, rfl, rfl, ?_⟩
  · simp only [hev]
  · intro hruns
    have hms := mean_stddev_eq L (sR.times.getD []) (durations env s.ticks num_runs.toNat)
      num_runs hruns (durations_length env _ _)
      (fun j hj => htimes j (by rwa [durations_length] at hj))
    have htot : sR.total_time = (durations env s.ticks num_runs.toNat).sum := by
      rw [htotal]; simp
    rw [htot, hms]
    exact ⟨rfl, rfl⟩

end PRLoopGeneral

/-! ## The repetition loop of `saxpy` -/

section SaxpyLoop

variable {α : Type} [Field α]

theorem saxpy_rep_eq (env : Env α) (fn : SaxpyKernel α) (a : α) (n : Nat)
    (hfn : ∀ id x y, fn id a x y n = saxpy_seq a x y n)
    (s : SaxpyState α) (t : List α) (ht : s.times = some t) (run : Nat) :
    saxpy_rep env fn a n s run = some
      { x := s.x
        y := saxpy_seq a s.x s.y_backup n
        y_backup := s.y_backup
        times := some (t.set run (env.clock (s.ticks + 1) - env.clock s.ticks))
        total_time := s.total_time
          + (t.set run (env.clock (s.ticks + 1) - env.clock s.ticks)).getD run 0
        ticks := s.ticks + 2
        events := s.events } := by
  unfold saxpy_rep saxpy_timed_call saxpy_restore get_time
  simp only [hfn, ht]

theorem saxpy_run_loop_succ (env : Env α) (fn : SaxpyKernel α) (a : α) (n R : Nat)
    (s : SaxpyState α) :
    saxpy_run_loop env fn a n (R + 1) s
      = (saxpy_run_loop env fn a n R s).bind (fun sR => saxpy_rep env fn a n sR R) := by
  unfold saxpy_run_loop
  rw [List.range_succ, List.foldlM_append]
  simp [List.foldlM]

theorem saxpy_run_loop_spec (env : Env α) (fn : SaxpyKernel α) (a : α) (n : Nat)
    (hfn : ∀ id x y, fn id a x y n = saxpy_seq a x y n)
    (s : SaxpyState α) (t : List α) (ht : s.times = some t) (R : Nat) (hR : R ≤ t.length) :
    ∃ sR tR, saxpy_run_loop env fn a n R s = some sR
      ∧ sR.x = s.x
      ∧ sR.y_backup = s.y_backup
      ∧ sR.ticks = s.ticks + 2 * R
      ∧ sR.times = some tR
      ∧ tR.length = t.length
      ∧ (∀ j, tR.getD j 0 = if j < R then (durations env s.ticks R).getD j 0 else t.getD j 0)
      ∧ sR.total_time = s.total_time + (durations env s.ticks R).sum
      ∧ sR.events = s.events
      ∧ (0 < R → sR.y = saxpy_seq a s.x s.y_backup n) := by
  induction R with
  | zero =>
    refine ⟨s, t, ?_, rfl, rfl, rfl, ht, rfl, ?_, ?_, rfl, ?_⟩
    · simp [saxpy_run_loop]
    · intro j; simp
    · simp [durations]
    · intro h; omega
  | succ R ih =>
    obtain ⟨sR, tR, hloop, hx, hyb, hticks, htimes, hlen, hget, htotal, hev, _⟩ :=
      ih (by omega)
    rw [saxpy_run_loop_succ, hloop, Option.some_bind, saxpy_rep_eq env fn a n hfn sR tR htimes R]
    have hRlt : R < tR.length := by omega
    refine ⟨_, _, rfl, hx, hyb, ?_, rfl, ?_, ?_, ?_, hev, ?_⟩
    · simp only [hticks]; omega
    · rw [List.length_set, hlen]
    · intro j
      by_cases hj : j = R
      · subst hj
        rw [getD_set_self _ _ _ hRlt, if_pos (by omega), durations_getD env _ _ _ (by omega),
          hticks]
      · rw [getD_set_ne _ _ _ _ hj, hget j]
        by_cases hjR : j < R
        · rw [if_pos hjR, if_pos (by omega), durations_getD env _ _ _ hjR,
            durations_getD env _ _ _ (by omega)]
        · rw [if_neg hjR, if_neg (by omega)]
    · simp only [getD_set_self _ _ _ hRlt, htotal, hticks, durations_succ, List.sum_append,
        List.sum_singleton, add_assoc]
    · intro _
      simp only [hx, hyb]

theorem saxpy_run_loop_capacity (env : Env α) (fn : SaxpyKernel α) (a : α) (n : Nat)
    (hfn : ∀ id x y, fn id a x y n = saxpy_seq a x y n)
    (s : SaxpyState α) (R : Nat) (hR : R ≤ capacity s.times) :
    ∃ sR, saxpy_run_loop env fn a n R s = some sR
      ∧ sR.x = s.x
      ∧ sR.y_backup = s.y_backup
      ∧ sR.ticks = s.ticks + 2 * R
      ∧ capacity sR.times = capacity s.times
      ∧ (∀ j, j < R → (sR.times.getD []).getD j 0 = (durations env s.ticks R).getD j 0)
      ∧ sR.total_time = s.total_time + (durations env s.ticks R).sum
      ∧ sR.events = s.events
      ∧ (0 < R → sR.y = saxpy_seq a s.x s.y_backup n) := by
  cases ht : s.times with
  | none =>
    rw [ht] at hR
    have hR0 : R = 0 := by simpa [capacity] using hR
    subst hR0
    refine ⟨s, ?_, rfl, rfl, rfl, ?_, ?_, ?_, rfl, ?_⟩
    · simp [saxpy_run_loop]
    · rw [ht]
    · intro j hj; omega
    · simp [durations]
    · intro h; omega
  | some t =>
    rw [ht] at hR
    obtain ⟨sR, tR, hloop, hx, hyb, hticks, htimes, hlen, hget, htotal, hev, hy⟩ :=
      saxpy_run_loop_spec env fn a n hfn s t ht R hR
    refine ⟨sR, hloop, hx, hyb, hticks, ?_, ?_, htotal, hev, hy⟩
    · rw [htimes]
      simpa [capacity] using hlen
    · intro j hj
      rw [htimes, Option.getD_some, hget j, if_pos hj]

theorem saxpy_versions_get (env : Env α) (v : Nat) (hv : v < 3) :
    ∃ nf, (saxpy_versions env).get? v = some nf ∧ nf ∈ saxpy_versions env
      ∧ nf.1 = ["seq", "simd", "parallel_simd"].getD v "" := by
  interval_cases v
  · exact ⟨_, rfl, by simp [saxpy_versions], rfl⟩
  · exact ⟨_, rfl, by simp [saxpy_versions], rfl⟩
  · exact ⟨_, rfl, by simp [saxpy_versions], rfl⟩

/-- One pass of the loop over `v`: the repetitions, then one record. -/
theorem saxpy_run_variant_spec (L : Libm α) (env : Env α) (a : α) (n : Nat)
    (num_threads num_runs : Int) (s : SaxpyState α) (v : Nat) (hv : v < 3)
    (hcap : num_runs.toNat ≤ capacity s.times) :
    ∃ s1 r, saxpy_run_variant L env a n num_threads num_runs s v = some s1
      ∧ s1.x = s.x
      ∧ s1.y_backup = s.y_backup
      ∧ s1.ticks = s.ticks + 2 * num_runs.toNat
      ∧ capacity s1.times = capacity s.times
      ∧ s1.events = s.events ++ [Event.printf r]
      ∧ r.name = ["seq", "simd", "parallel_simd"].getD v ""
      ∧ r.n = n
      ∧ r.effective_threads = (if v = 2 then num_threads else 1)
      ∧ (1 ≤ num_runs → r.mean = spec_mean (durations env s.ticks num_runs.toNat)
          ∧ r.stddev = spec_stddev L.sqrt (durations env s.ticks num_runs.toNat)) := by
  obtain ⟨nf, hget, hmem, hname⟩ := saxpy_versions_get env v hv
  obtain ⟨sR, hloop, hx, hyb, hticks, hcap1, htimes, htotal, hev, _⟩ :=
    saxpy_run_loop_capacity env nf.2 a n (fun id x y => saxpy_versions_eq env nf hmem id a x y n)
      { s with total_time := 0 } num_runs.toNat hcap
  unfold saxpy_run_variant
  rw [hget]
  simp only [hloop]
  refine ⟨_, ⟨nf.1, n, if v = 2 then num_threads else 1,
    (mean_stddev L (sR.times.getD []) sR.total_time num_runs).1,
    (mean_stddev L (sR.times.getD []) sR.total_time num_runs).2⟩,
    rfl, hx, hyb, hticks, hcap1, ?_, hname, rfl, rfl, ?_⟩
  · simp only [hev]
  · intro hruns
    have hms := mean_stddev_eq L (sR.times.getD []) (durations env s.ticks num_runs.toNat)
      num_runs hruns (durations_length env _ _)
      (fun j hj => htimes j (by rwa [durations_length] at hj))
    have htot : sR.total_time = (durations env s.ticks num_runs.toNat).sum := by
      rw [htotal]; simp
    rw [htot, hms]
    exact ⟨rfl, rfl⟩

end SaxpyLoop

/-! ## The loop over the variants and `main` -/

section Events

variable {α : Type}

theorem stdout_records_append (a b : List (Event α)) :
    stdout_records (a ++ b) = stdout_records a ++ stdout_records b := by
  unfold stdout_records
  rw [List.filterMap_append]

theorem stdout_records_stores (f : Nat → α) (l : List Nat) :
    stdout_records (l.map (fun k => Event.volatile_store (f k))) = [] := by
  induction l with
  | nil => rfl
  | cons a l ih =>
    rw [List.map_cons]
    unfold stdout_records at ih ⊢
    rw [List.filterMap_cons]
    exact ih

theorem stdout_records_printf (r : Record α) : stdout_records [Event.printf r] = [r] := rfl

theorem volatile_stores_append (a b : List (Event α)) :
    volatile_stores (a ++ b) = volatile_stores a ++ volatile_stores b := by
  unfold volatile_stores
  rw [List.filterMap_append]

theorem capacity_times (env : Env α) (num_runs : Int)
    (htimes : env.malloc_ok 3 (times_bytes num_runs) = true ∨ num_runs ≤ 0) :
    num_runs.toNat ≤ capacity (if env.malloc_ok 3 (times_bytes num_runs)
      then some (List.replicate num_runs.toNat env.junk) else none) := by
  rcases htimes with h | h
  · rw [if_pos h]
    simp [capacity]
  · have : num_runs.toNat = 0 := by omega
    rw [this]
    exact Nat.zero_le _

theorem capacity_pos_some {α : Type} (times : Option (List α)) (k : Nat)
    (h : k < capacity times) : ∃ t, times = some t := by
  cases times with
  | none => simp [capacity] at h
  | some t => exact ⟨t, rfl⟩

theorem volatile_stores_stores {α : Type} (f : Nat → α) (l : List Nat) :
    volatile_stores (l.map (fun k => Event.volatile_store (f k))) = l.map f := by
  induction l with
  | nil => rfl
  | cons a l ih =>
    rw [List.map_cons, List.map_cons]
    unfold volatile_stores at ih ⊢
    rw [List.filterMap_cons]
    simp only [List.cons.injEq, true_and]
    exact ih

end Events

section MainLoop

variable {α : Type} [Field α]

theorem version_range_eq (version : Int) :
    version_range version 3
      = if 0 ≤ version ∧ version < 3 then [version.toNat] else [0, 1, 2] := by
  unfold version_range
  by_cases h : 0 ≤ version ∧ version < 3
  · have h1 : version ≥ 0 ∧ version < 3 := h
    simp only [if_pos h1, if_pos h]
    have : (version + 1 - version).toNat = 1 := by
      have : version + 1 - version = 1 := by omega
      rw [this]; rfl
    rw [this]
    rfl
  · have h1 : ¬ (version ≥ 0 ∧ version < 3) := h
    simp only [if_neg h1, if_neg h]
    rfl

theorem version_range_lt (version : Int) : ∀ v ∈ version_range version 3, v < 3 := by
  intro v hv
  rw [version_range_eq] at hv
  by_cases h : 0 ≤ version ∧ version < 3
  · rw [if_pos h] at hv
    simp only [List.mem_singleton] at hv
    omega
  · rw [if_neg h] at hv
    simp only [List.mem_cons, List.mem_singleton, List.not_mem_nil, or_false] at hv
    omega

/-- The loop over the variants of `parallel_region/omp`, run over the indices `vs`. -/
theorem pr_versions_loop_spec (L : Libm α) (env : Env α) (n : Nat) (num_threads num_runs : Int)
    (hn : n * 8 < SIZE_MOD) (vs : List Nat) (hvs : ∀ v ∈ vs, v < 3) (s : PRState α)
    (hcap : num_runs.toNat ≤ capacity s.times) :
    ∃ s1, vs.foldlM (pr_run_variant L env n num_threads num_runs) s = some s1
      ∧ s1.x = s.x
      ∧ capacity s1.times = capacity s.times
      ∧ s1.ticks = s.ticks + 2 * num_runs.toNat * vs.length
      ∧ s1.dummy_sum = s.dummy_sum
          + ((vs.length : α) * (num_runs.toNat : α)) * pr_sentinel L s.x n
      ∧ (stdout_records s1.events).map (fun r => (r.name, r.n, r.effective_threads))
          = (stdout_records s.events).map (fun r => (r.name, r.n, r.effective_threads))
            ++ vs.map (fun v => (["seq", "ingenua", "arrumada"].getD v "", n,
                if v = 0 then 1 else num_threads)) := by
  induction vs generalizing s with
  | nil =>
    refine ⟨s, rfl, rfl, rfl, ?_, ?_, ?_⟩ <;> simp
  | cons v vs ih =>
    obtain ⟨s1, r, hrun, hx, hticks, hcap1, hdummy, hev, hname, hrn, hthreads, _⟩ :=
      pr_run_variant_spec L env n num_threads num_runs hn s v
        (hvs v (List.mem_cons_self _ _)) hcap
    obtain ⟨s2, hloop, hx2, hcap2, hticks2, hdummy2, hrec2⟩ :=
      ih (fun w hw => hvs w (List.mem_cons_of_mem _ hw)) s1 (by rw [hcap1]; exact hcap)
    refine ⟨s2, ?_, ?_, ?_, ?_, ?_, ?_⟩
    · rw [List.foldlM_cons, hrun]
      exact hloop
    · rw [hx2, hx]
    · rw [hcap2, hcap1]
    · rw [hticks2, hticks, List.length_cons]; ring
    · rw [hdummy2, hdummy, hx, List.length_cons]
      push_cast
      ring
    · rw [hrec2, hev, stdout_records_append, stdout_records_append, stdout_records_stores,
        stdout_records_printf, List.append_nil, List.map_append, List.map_cons, List.map_nil,
        List.map_cons, hname, hrn, hthreads, List.append_assoc]
      rfl

/-- The loop over the variants of `saxpy/omp`, run over the indices `vs`. -/
theorem saxpy_versions_loop_spec (L : Libm α) (env : Env α) (a : α) (n : Nat)
    (num_threads num_runs : Int) (vs : List Nat) (hvs : ∀ v ∈ vs, v < 3) (s : SaxpyState α)
    (hcap : num_runs.toNat ≤ capacity s.times) :
    ∃ s1, vs.foldlM (saxpy_run_variant L env a n num_threads num_runs) s = some s1
      ∧ s1.x = s.x
      ∧ s1.y_backup = s.y_backup
      ∧ capacity s1.times = capacity s.times
      ∧ s1.ticks = s.ticks + 2 * num_runs.toNat * vs.length
      ∧ volatile_stores s1.events = volatile_stores s.events
      ∧ (stdout_records s1.events).map (fun r => (r.name, r.n, r.effective_threads))
          = (stdout_records s.events).map (fun r => (r.name, r.n, r.effective_threads))
            ++ vs.map (fun v => (["seq", "simd", "parallel_simd"].getD v "", n,
                if v = 2 then num_threads else 1)) := by
  induction vs generalizing s with
  | nil =>
    refine ⟨s, rfl, rfl, rfl, rfl, ?_, rfl, ?_⟩ <;> simp
  | cons v vs ih =>
    obtain ⟨s1, r, hrun, hx, hyb, hticks, hcap1, hev, hname, hrn, hthreads, _⟩ :=
      saxpy_run_variant_spec L env a n num_threads num_runs s v
        (hvs v (List.mem_cons_self _ _)) hcap
    obtain ⟨s2, hloop, hx2, hyb2, hcap2, hticks2, hvol2, hrec2⟩ :=
      ih (fun w hw => hvs w (List.mem_cons_of_mem _ hw)) s1 (by rw [hcap1]; exact hcap)
    refine ⟨s2, ?_, ?_, ?_, ?_, ?_, ?_, ?_⟩
    · rw [List.foldlM_cons, hrun]
      exact hloop
    · rw [hx2, hx]
    · rw [hyb2, hyb]
    · rw [hcap2, hcap1]
    · rw [hticks2, hticks, List.length_cons]; ring
    · rw [hvol2, hev, volatile_stores_append]
      simp [volatile_stores]
    · rw [hrec2, hev, stdout_records_append, stdout_records_printf, List.map_append,
        List.map_cons, List.map_nil, List.map_cons, hname, hrn, hthreads, List.append_assoc]
      rfl

/-- A run of `parallel_region/omp` whose allocations succeed is the loop over the
selected variants from the initial state; it returns 0 after printing one record per
selected variant. -/
theorem pr_omp_main_spec (L : Libm α) (env : Env α) (args : List Int)
    (hxyz : ∀ k, k < 3 → env.malloc_ok k (arg_size_t args 0 1000000 * 8 % SIZE_MOD) = true)
    (hn : arg_size_t args 0 1000000 * 8 < SIZE_MOD)
    (htimes : env.malloc_ok 3 (times_bytes (arg_int args 2 5)) = true ∨ arg_int args 2 5 ≤ 0) :
    ∃ s1, (version_range (arg_int args 4 (-1)) 3).foldlM
          (pr_run_variant L env (arg_size_t args 0 1000000) (arg_int args 1 4) (arg_int args 2 5))
          (pr_omp_init env (arg_size_t args 0 1000000) (arg_int args 2 5)
            (arg_unsigned args 3 42)) = some s1
      ∧ pr_omp_main L env args = Outcome.exit 0 s1.events
      ∧ s1.ticks = 2 * (arg_int args 2 5).toNat * (version_range (arg_int args 4 (-1)) 3).length
      ∧ (stdout_records s1.events).map (fun r => (r.name, r.n, r.effective_threads))
          = (version_range (arg_int args 4 (-1)) 3).map (fun v =>
              (["seq", "ingenua", "arrumada"].getD v "", arg_size_t args 0 1000000,
                if v = 0 then 1 else arg_int args 1 4)) := by
  obtain ⟨s1, hloop, _, _, hticks, _, hrec⟩ :=
    pr_versions_loop_spec L env (arg_size_t args 0 1000000) (arg_int args 1 4) (arg_int args 2 5)
      hn (version_range (arg_int args 4 (-1)) 3) (version_range_lt _)
      (pr_omp_init env (arg_size_t args 0 1000000) (arg_int args 2 5) (arg_unsigned args 3 42))
      (capacity_times env _ htimes)
  refine ⟨s1, hloop, ?_, ?_, ?_⟩
  · unfold pr_omp_main
    have hlen : (((pr_versions L env).length : Nat) : Int) = 3 := rfl
    simp only [hxyz 0 (by omega), hxyz 1 (by omega), hxyz 2 (by omega), hlen, hloop,
      Bool.not_true, Bool.or_self, Bool.false_eq_true, if_false, if_neg (Nat.not_le.mpr hn)]
  · rw [hticks]
    simp [pr_omp_init]
  · rw [hrec]
    simp [pr_omp_init, stdout_records]

/-- A run of `saxpy/omp` whose allocations succeed is the loop over the selected
variants from the initial state; it returns 0 after printing one record per selected
variant. -/
theorem saxpy_omp_main_spec (L : Libm α) (env : Env α) (args : List Int)
    (hxyz : ∀ k, k < 3 → env.malloc_ok k (arg_size_t args 0 1000000 * 4 % SIZE_MOD) = true)
    (hn : arg_size_t args 0 1000000 * 4 < SIZE_MOD)
    (htimes : env.malloc_ok 3 (times_bytes (arg_int args 2 5)) = true ∨ arg_int args 2 5 ≤ 0) :
    ∃ s1, (version_range (arg_int args 4 (-1)) 3).foldlM
          (saxpy_run_variant L env (5 / 2) (arg_size_t args 0 1000000) (arg_int args 1 4)
            (arg_int args 2 5))
          (saxpy_init env (arg_size_t args 0 1000000) (arg_unsigned args 3 42)
            (if env.malloc_ok 3 (times_bytes (arg_int args 2 5))
              then some (List.replicate (arg_int args 2 5).toNat env.junk) else none)) = some s1
      ∧ saxpy_omp_main L env args = Outcome.exit 0 s1.events
      ∧ s1.ticks = 2 * (arg_int args 2 5).toNat * (version_range (arg_int args 4 (-1)) 3).length
      ∧ (stdout_records s1.events).map (fun r => (r.name, r.n, r.effective_threads))
          = (version_range (arg_int args 4 (-1)) 3).map (fun v =>
              (["seq", "simd", "parallel_simd"].getD v "", arg_size_t args 0 1000000,
                if v = 2 then arg_int args 1 4 else 1)) := by
  obtain ⟨s1, hloop, _, _, _, hticks, _, hrec⟩ :=
    saxpy_versions_loop_spec L env (5 / 2) (arg_size_t args 0 1000000) (arg_int args 1 4)
      (arg_int args 2 5) (version_range (arg_int args 4 (-1)) 3) (version_range_lt _)
      (saxpy_init env (arg_size_t args 0 1000000) (arg_unsigned args 3 42)
        (if env.malloc_ok 3 (times_bytes (arg_int args 2 5))
          then some (List.replicate (arg_int args 2 5).toNat env.junk) else none))
      (capacity_times env _ htimes)
  refine ⟨s1, hloop, ?_, ?_, ?_⟩
  · unfold saxpy_omp_main
    have hlen : (((saxpy_versions env).length : Nat) : Int) = 3 := rfl
    simp only [hxyz 0 (by omega), hxyz 1 (by omega), hxyz 2 (by omega), hlen, hloop,
      Bool.not_true, Bool.or_self, Bool.false_eq_true, if_false, if_neg (Nat.not_le.mpr hn)]
  · rw [hticks]
    simp [saxpy_init]
  · rw [hrec]
    simp [saxpy_init, stdout_records]

/-- A run of `parallel_region/sequencial` whose allocations succeed, with at least one
repetition, returns 0 after printing the record of `seq`. -/
theorem pr_seq_main_spec (L : Libm α) (env : Env α) (args : List Int)
    (hxyz : ∀ k, k < 3 → env.malloc_ok k (arg_size_t args 0 1000000 * 8 % SIZE_MOD) = true)
    (hn : arg_size_t args 0 1000000 * 8 < SIZE_MOD) (hruns : 1 ≤ arg_int args 1 5) :
    ∃ evs r, pr_seq_main L env args = Outcome.exit 0 (evs ++ [Event.printf r])
      ∧ stdout_records evs = []
      ∧ r.name = "seq" ∧ r.n = arg_size_t args 0 1000000 ∧ r.effective_threads = 1
      ∧ r.mean = spec_mean (durations env 0 (arg_int args 1 5).toNat)
      ∧ r.stddev = spec_stddev L.sqrt (durations env 0 (arg_int args 1 5).toNat) := by
  obtain ⟨sR, hloop, _, _, _, htimes, htotal, _, hev, _⟩ :=
    pr_run_loop_capacity L env (fun _ x y z n => process_sequential L x y z n)
      (arg_size_t args 0 1000000) (fun _ _ _ _ => rfl) (size_bound_of_bytes _ hn)
      { x := init_vector env (List.replicate (arg_size_t args 0 1000000) env.junk)
          (arg_size_t args 0 1000000) (arg_unsigned args 2 42)
        y := List.replicate (arg_size_t args 0 1000000) env.junk
        z := List.replicate (arg_size_t args 0 1000000) env.junk
        times := some (List.replicate (arg_int args 1 5).toNat env.junk)
        total_time := 0
        dummy_sum := 0
        ticks := 0
        events := [] }
      (arg_int args 1 5).toNat (by simp [capacity])
  have hms := mean_stddev_eq L (sR.times.getD []) (durations env 0 (arg_int args 1 5).toNat)
    (arg_int args 1 5) hruns (durations_length env _ _)
    (fun j hj => htimes j (by rwa [durations_length] at hj))
  have htot : sR.total_time = (durations env 0 (arg_int args 1 5).toNat).sum := by
    rw [htotal]; simp
  refine ⟨sR.events, ⟨"seq", arg_size_t args 0 1000000, 1,
    spec_mean (durations env 0 (arg_int args 1 5).toNat),
    spec_stddev L.sqrt (durations env 0 (arg_int args 1 5).toNat)⟩, ?_, ?_, rfl, rfl, rfl, rfl,
    rfl⟩
  · unfold pr_seq_main
    simp only [hxyz 0 (by omega), hxyz 1 (by omega), hxyz 2 (by omega), hloop,
      Bool.not_true, Bool.or_self, Bool.false_eq_true, if_false, if_neg (Nat.not_le.mpr hn),
      if_neg (Int.not_le.mpr (by omega : 0 < arg_int args 1 5)), htot, hms]
  · rw [hev]
    simp only [List.nil_append]
    exact stdout_records_stores _ _

/-- A run of `saxpy/seq` whose allocations succeed, with at least one repetition,
returns 0 after printing the record of `seq`, and nothing else. -/
theorem saxpy_seq_main_spec (L : Libm α) (env : Env α) (args : List Int)
    (hxyz : ∀ k, k < 3 → env.malloc_ok k (arg_size_t args 0 1000000 * 4 % SIZE_MOD) = true)
    (hn : arg_size_t args 0 1000000 * 4 < SIZE_MOD) (hruns : 1 ≤ arg_int args 1 5) :
    ∃ r, saxpy_seq_main L env args = Outcome.exit 0 [Event.printf r]
      ∧ r.name = "seq" ∧ r.n = arg_size_t args 0 1000000 ∧ r.effective_threads = 1
      ∧ r.mean = spec_mean (durations env 0 (arg_int args 1 5).toNat)
      ∧ r.stddev = spec_stddev L.sqrt (durations env 0 (arg_int args 1 5).toNat) := by
  obtain ⟨sR, hloop, _, _, _, _, htimes, htotal, hev, _⟩ :=
    saxpy_run_loop_capacity env (fun _ a x y n => saxpy_seq a x y n) (5 / 2)
      (arg_size_t args 0 1000000) (fun _ _ _ => rfl)
      (saxpy_init env (arg_size_t args 0 1000000) (arg_unsigned args 2 42)
        (some (List.replicate (arg_int args 1 5).toNat env.junk)))
      (arg_int args 1 5).toNat (by simp [capacity, saxpy_init])
  have hms := mean_stddev_eq L (sR.times.getD []) (durations env 0 (arg_int args 1 5).toNat)
    (arg_int args 1 5) hruns (durations_length env _ _)
    (fun j hj => htimes j (by rwa [durations_length] at hj))
  have htot : sR.total_time = (durations env 0 (arg_int args 1 5).toNat).sum := by
    rw [htotal]; simp [saxpy_init]
  have hev0 : sR.events = [] := by rw [hev]; rfl
  refine ⟨⟨"seq", arg_size_t args 0 1000000, 1,
    spec_mean (durations env 0 (arg_int args 1 5).toNat),
    spec_stddev L.sqrt (durations env 0 (arg_int args 1 5).toNat)⟩, ?_, rfl, rfl, rfl, rfl, rfl⟩
  unfold saxpy_seq_main
  simp only [hxyz 0 (by omega), hxyz 1 (by omega), hxyz 2 (by omega), hloop,
    Bool.not_true, Bool.or_self, Bool.false_eq_true, if_false, if_neg (Nat.not_le.mpr hn),
    if_neg (Int.not_le.mpr (by omega : 0 < arg_int args 1 5)), htot, hms, hev0,
    List.nil_append]

/-- When one of the three tested allocations fails, each driver prints the error line
and returns 1, with nothing on standard output. -/
theorem tested_allocation_failure_fatal (L : Libm α) (env : Env α) (args : List Int) :
    ((∃ k, k < 3 ∧ env.malloc_ok k (arg_size_t args 0 1000000 * 8 % SIZE_MOD) = false) →
      pr_omp_main L env args = Outcome.exit 1 [Event.fprintf_stderr "Erro ao alocar memória\n"]
      ∧ pr_seq_main L env args
        = Outcome.exit 1 [Event.fprintf_stderr "Erro ao alocar memória\n"])
    ∧ ((∃ k, k < 3 ∧ env.malloc_ok k (arg_size_t args 0 1000000 * 4 % SIZE_MOD) = false) →
      saxpy_omp_main L env args
        = Outcome.exit 1 [Event.fprintf_stderr "Erro ao alocar memória\n"]
      ∧ saxpy_seq_main L env args
        = Outcome.exit 1 [Event.fprintf_stderr "Erro ao alocar memória\n"]) := by
  constructor
  · rintro ⟨k, hk, hfail⟩
    unfold pr_omp_main pr_seq_main
    interval_cases k <;> simp [hfail]
  · rintro ⟨k, hk, hfail⟩
    unfold saxpy_omp_main saxpy_seq_main
    interval_cases k <;> simp [hfail]

/-- One repetition with any kernel `fn`: the kernel is called once, with the current
number of clock readings as invocation id, on `x` and on zeroed `y` and `z`; its result
becomes `y` and `z`, and `dummy_sum` grows by the subsample of that result. -/
theorem pr_rep_call (env : Env α) (fn : PRKernel α) (n : Nat)
    (hn : n + n / 100 + 1 < SIZE_MOD) (s : PRState α) (run : Nat)
    (hcap : 0 < capacity s.times) :
    ∃ s1, pr_rep env fn n s run = some s1
      ∧ s1.x = s.x
      ∧ (s1.y, s1.z) = fn s.ticks s.x (List.replicate n 0) (List.replicate n 0) n
      ∧ s1.dummy_sum = s.dummy_sum + subsample_sum s1.y s1.z n
      ∧ s1.ticks = s.ticks + 2
      ∧ s1.events = s.events ++ [Event.volatile_store s1.dummy_sum] := by
  obtain ⟨t, ht⟩ := capacity_pos_some s.times 0 hcap
  unfold pr_rep pr_timed_call pr_reset get_time
  simp only [use_results_eq _ _ n hn, ht]
  exact ⟨_, rfl, rfl, rfl, rfl, rfl, rfl⟩

/-- One repetition with any kernel `fn`: the kernel is called once, on `x` and on `y`
restored from `y_backup`; its result becomes `y`. -/
theorem saxpy_rep_call (env : Env α) (fn : SaxpyKernel α) (a : α) (n : Nat)
    (s : SaxpyState α) (run : Nat) (hcap : 0 < capacity s.times) :
    ∃ s1, saxpy_rep env fn a n s run = some s1
      ∧ s1.x = s.x
      ∧ s1.y_backup = s.y_backup
      ∧ s1.y = fn s.ticks a s.x s.y_backup n
      ∧ s1.ticks = s.ticks + 2
      ∧ s1.events = s.events := by
  obtain ⟨t, ht⟩ := capacity_pos_some s.times 0 hcap
  unfold saxpy_rep saxpy_timed_call saxpy_restore get_time
  simp only [ht]
  exact ⟨_, rfl, rfl, rfl, rfl, rfl, rfl⟩

/-- What one pass of the loop over `v` executes in `parallel_region/omp`: `num_runs`
repetitions, each calling the kernel `versions[v].fn` on `x` and zeroed `y`, `z`, then one
record named `versions[v].name`. -/
theorem pr_run_variant_exec (L : Libm α) (env : Env α) (n : Nat) (num_threads num_runs : Int)
    (hn : n * 8 < SIZE_MOD) (s : PRState α) (v : Nat) (hv : v < 3)
    (hcap : num_runs.toNat ≤ capacity s.times) :
    ∃ nf sR r, (pr_versions L env).get? v = some nf
      ∧ pr_run_loop env nf.2 n num_runs.toNat { s with total_time := 0 } = some sR
      ∧ pr_run_variant L env n num_threads num_runs s v
          = some { sR with events := sR.events ++ [Event.printf r] }
      ∧ r.name = nf.1 ∧ r.n = n ∧ r.effective_threads = (if v = 0 then 1 else num_threads)
      ∧ sR.x = s.x
      ∧ sR.ticks = s.ticks + 2 * num_runs.toNat
      ∧ (volatile_stores sR.events).length = (volatile_stores s.events).length + num_runs.toNat
      ∧ ∀ k, k < num_runs.toNat → ∃ sk sk1,
          pr_run_loop env nf.2 n k { s with total_time := 0 } = some sk
          ∧ pr_rep env nf.2 n sk k = some sk1
          ∧ pr_run_loop env nf.2 n (k + 1) { s with total_time := 0 } = some sk1
          ∧ (sk1.y, sk1.z)
              = nf.2 (s.ticks + 2 * k) s.x (List.replicate n 0) (List.replicate n 0) n := by
  obtain ⟨nf, hget, hmem, _⟩ := pr_versions_get L env v hv
  have hfn : ∀ id x y z, nf.2 id x y z n = process_sequential L x y z n :=
    fun id x y z => pr_versions_eq L env nf hmem id x y z n
  have hb := size_bound_of_bytes n hn
  obtain ⟨sR, hloop, hx, hticks, _, _, _, _, hev, _⟩ :=
    pr_run_loop_capacity L env nf.2 n hfn hb { s with total_time := 0 } num_runs.toNat hcap
  refine ⟨nf, sR, ⟨nf.1, n, if v = 0 then 1 else num_threads,
    (mean_stddev L (sR.times.getD []) sR.total_time num_runs).1,
    (mean_stddev L (sR.times.getD []) sR.total_time num_runs).2⟩, hget, hloop, ?_, rfl, rfl, rfl,
    hx, hticks, ?_, ?_⟩
  · unfold pr_run_variant
    rw [hget]
    simp only [hloop]
  · rw [hev, volatile_stores_append, volatile_stores_stores, List.length_append,
      List.length_map, List.length_range]
  · intro k hk
    obtain ⟨sk, hk0, hxk, htk, hcapk, _⟩ :=
      pr_run_loop_capacity L env nf.2 n hfn hb { s with total_time := 0 } k
        (by show k ≤ capacity s.times; omega)
    obtain ⟨sk1, hrep, _, hyz, _⟩ := pr_rep_call env nf.2 n hb sk k
      (by rw [hcapk]; show 0 < capacity s.times; omega)
    refine ⟨sk, sk1, hk0, hrep, ?_, ?_⟩
    · rw [pr_run_loop_succ, hk0, Option.some_bind, hrep]
    · rw [hyz, hxk, htk]

/-- What one pass of the loop over `v` executes in `saxpy/omp`: `num_runs` repetitions,
each calling the kernel `versions[v].fn` on `x` and on `y` restored from `y_backup`, then
one record named `versions[v].name`. -/
theorem saxpy_run_variant_exec (L : Libm α) (env : Env α) (a : α) (n : Nat)
    (num_threads num_runs : Int) (s : SaxpyState α) (v : Nat) (hv : v < 3)
    (hcap : num_runs.toNat ≤ capacity s.times) :
    ∃ nf sR r, (saxpy_versions env).get? v = some nf
      ∧ saxpy_run_loop env nf.2 a n num_runs.toNat { s with total_time := 0 } = some sR
      ∧ saxpy_run_variant L env a n num_threads num_runs s v
          = some { sR with events := sR.events ++ [Event.printf r] }
      ∧ r.name = nf.1 ∧ r.n = n ∧ r.effective_threads = (if v = 2 then num_threads else 1)
      ∧ sR.x = s.x
      ∧ sR.y_backup = s.y_backup
      ∧ sR.ticks = s.ticks + 2 * num_runs.toNat
      ∧ ∀ k, k < num_runs.toNat → ∃ sk sk1,
          saxpy_run_loop env nf.2 a n k { s with total_time := 0 } = some sk
          ∧ saxpy_rep env nf.2 a n sk k = some sk1
          ∧ saxpy_run_loop env nf.2 a n (k + 1) { s with total_time := 0 } = some sk1
          ∧ sk1.y = nf.2 (s.ticks + 2 * k) a s.x s.y_backup n := by
  obtain ⟨nf, hget, hmem, _⟩ := saxpy_versions_get env v hv
  have hfn : ∀ id x y, nf.2 id a x y n = saxpy_seq a x y n :=
    fun id x y => saxpy_versions_eq env nf hmem id a x y n
  obtain ⟨sR, hloop, hx, hyb, hticks, _, _, _, _, _⟩ :=
    saxpy_run_loop_capacity env nf.2 a n hfn { s with total_time := 0 } num_runs.toNat hcap
  refine ⟨nf, sR, ⟨nf.1, n, if v = 2 then num_threads else 1,
    (mean_stddev L (sR.times.getD []) sR.total_time num_runs).1,
    (mean_stddev L (sR.times.getD []) sR.total_time num_runs).2⟩, hget, hloop, ?_, rfl, rfl, rfl,
    hx, hyb, hticks, ?_⟩
  · unfold saxpy_run_variant
    rw [hget]
    simp only [hloop]
  · intro k hk
    obtain ⟨sk, hk0, hxk, hybk, htk, hcapk, _⟩ :=
      saxpy_run_loop_capacity env nf.2 a n hfn { s with total_time := 0 } k
        (by show k ≤ capacity s.times; omega)
    obtain ⟨sk1, hrep, _, _, hy, _⟩ := saxpy_rep_call env nf.2 a n sk k
      (by rw [hcapk]; show 0 < capacity s.times; omega)
    refine ⟨sk, sk1, hk0, hrep, ?_, ?_⟩
    · rw [saxpy_run_loop_succ, hk0, Option.some_bind, hrep]
    · rw [hy, hxk, hybk, htk]

/-- The loop over `v` is one pass at index `version` when `0 <= version < 3`, and the
passes at `0`, `1`, `2` in that order otherwise. -/
theorem foldlM_version_range {σ : Type} (f : σ → Nat → Option σ) (s : σ) (version : Int) :
    (version_range version 3).foldlM f s
      = if 0 ≤ version ∧ version < 3 then f s version.toNat
        else (f s 0).bind (fun sa => (f sa 1).bind (fun sb => f sb 2)) := by
  rw [version_range_eq]
  by_cases h : 0 ≤ version ∧ version < 3
  · rw [if_pos h, if_pos h]
    simp [List.foldlM]
  · rw [if_neg h, if_neg h]
    simp only [List.foldlM_cons, List.foldlM_nil]
    cases h0 : f s 0 with
    | none => rfl
    | some sa =>
      cases h1 : f sa 1 with
      | none => simp [Option.bind, h1]
      | some sb =>
        cases h2 : f sb 2 with
        | none => simp [Option.bind, h1, h2]
        | some sc => simp [Option.bind, h1, h2]

end MainLoop

/-! ## Claims -/

section Claims

theorem foldl_snoc_eq (l acc : List Nat) :
    l.foldl (fun st j => st ++ [j]) acc = acc ++ l := by
  induction l generalizing acc with
  | nil => simp
  | cons a l ih => rw [List.foldl_cons, ih]; simp

theorem rel_err_self {β : Type} [LinearOrderedField β] (a : β) : rel_err a a < 1 / 1000000 := by
  unfold rel_err
  rw [sub_self, abs_zero, zero_div]
  norm_num

/-- C5: on the same `n`, input buffers and `a`, the variants of one family write the
same output, whatever order the runtime runs the loop iterations in:
`process_ingenua` and `process_arrumada` return the `(y, z)` of `process_sequential`,
`saxpy_simd` and `saxpy_parallel_simd` return the `y` of `saxpy_seq`; hence every
output element is within relative error `1e-6` of the sequential one. -/
theorem variants_agree {β : Type} [LinearOrderedField β] (L : Libm β) (n : Nat)
    (s1 s2 s3 s4 t1 t2 : Schedule n) (a : β) (x y z : List β) :
    process_ingenua L s1 s2 x y z = process_sequential L x y z n
    ∧ process_arrumada L s3 s4 x y z = process_sequential L x y z n
    ∧ saxpy_simd a t1 x y = saxpy_seq a x y n
    ∧ saxpy_parallel_simd a t2 x y = saxpy_seq a x y n
    ∧ ∀ i : Nat,
        rel_err ((process_ingenua L s1 s2 x y z).1.getD i 0)
            ((process_sequential L x y z n).1.getD i 0) < 1 / 1000000
        ∧ rel_err ((process_ingenua L s1 s2 x y z).2.getD i 0)
            ((process_sequential L x y z n).2.getD i 0) < 1 / 1000000
        ∧ rel_err ((process_arrumada L s3 s4 x y z).1.getD i 0)
            ((process_sequential L x y z n).1.getD i 0) < 1 / 1000000
        ∧ rel_err ((process_arrumada L s3 s4 x y z).2.getD i 0)
            ((process_sequential L x y z n).2.getD i 0) < 1 / 1000000
        ∧ rel_err ((saxpy_simd a t1 x y).getD i 0) ((saxpy_seq a x y n).getD i 0) < 1 / 1000000
        ∧ rel_err ((saxpy_parallel_simd a t2 x y).getD i 0) ((saxpy_seq a x y n).getD i 0)
            < 1 / 1000000 := by
  refine ⟨process_ingenua_eq L s1 s2 x y z, process_arrumada_eq L s3 s4 x y z,
    saxpy_simd_eq a t1 x y, saxpy_parallel_simd_eq a t2 x y, fun i => ?_⟩
  rw [process_ingenua_eq, process_arrumada_eq, saxpy_simd_eq, saxpy_parallel_simd_eq]
  exact ⟨rel_err_self _, rel_err_self _, rel_err_self _, rel_err_self _, rel_err_self _,
    rel_err_self _⟩

/-- C10: for a buffer length `n` with `n + n/100 + 1` below `2^64`, the loop of
`use_results` ends within `n + 1` loop tests; it reads the indices
`0, s, 2s, ...` with `s = n/100 + 1`, all below `n`, at most 100 of them, all of
`0 .. n-1` when `n < 100` and none when `n = 0`; and `use_results` returns the sum of
`y[i] + z[i]` over these indices. -/
theorem use_results_reads_bounded (n : Nat) (hn : n + n / 100 + 1 < SIZE_MOD) :
    ∃ idx : List Nat, use_results_reads (n + 1) n = some idx
      ∧ idx = (List.range idx.length).map (fun k => k * (n / 100 + 1))
      ∧ (∀ i ∈ idx, i < n)
      ∧ idx.length ≤ 100
      ∧ (n < 100 → idx = List.range n)
      ∧ (n = 0 → idx = [])
      ∧ ∀ (α : Type) [Field α] (y z : List α), use_results (n + 1) y z n
          = some (idx.foldl (fun sum i => sum + (y.getD i 0 + z.getD i 0)) 0) := by
  refine ⟨(List.range ((n + (n / 100 + 1) - 1) / (n / 100 + 1))).map
    (fun k => k * (n / 100 + 1)), ?_, ?_, ?_, ?_, ?_, ?_, ?_⟩
  · unfold use_results_reads
    rw [use_results_for_eq n _ hn (n + 1) 0 [] (by omega), foldl_snoc_eq]
    simp
  · simp
  · intro i hi
    rw [List.mem_map] at hi
    obtain ⟨k, hk, rfl⟩ := hi
    exact strided_index_lt n k (List.mem_range.mp hk)
  · rw [List.length_map, List.length_range]
    exact strided_count_le n
  · intro h100
    have h0 : n / 100 = 0 := Nat.div_eq_of_lt h100
    rw [h0]
    simp
  · intro h0
    subst h0
    simp
  · intro α _ y z
    unfold use_results
    rw [use_results_for_eq n _ hn (n + 1) 0 0 (by omega)]
    simp

/-- C10 at `n = 250`. -/
theorem use_results_reads_bounded_witness :
    250 + 250 / 100 + 1 < SIZE_MOD
    ∧ ∃ idx : List Nat, use_results_reads (250 + 1) 250 = some idx
      ∧ idx = (List.range idx.length).map (fun k => k * (250 / 100 + 1))
      ∧ (∀ i ∈ idx, i < 250)
      ∧ idx.length ≤ 100
      ∧ (250 < 100 → idx = List.range 250)
      ∧ (250 = 0 → idx = [])
      ∧ ∀ (α : Type) [Field α] (y z : List α), use_results (250 + 1) y z 250
          = some (idx.foldl (fun sum i => sum + (y.getD i 0 + z.getD i 0)) 0) :=
  ⟨by decide, use_results_reads_bounded 250 (by decide)⟩

/-- C1: for `R = num_runs >= 1` recorded durations `t[0..R-1]`, the statistics step of
each of the four drivers reports `mean = (t[0] + ... + t[R-1]) / R` and
`stddev = sqrt(sum_i (t[i] - mean)^2 / (R - 1))` when `R > 1`, `stddev = 0` when `R = 1`
(`spec_mean` and `spec_stddev` of the durations the clock gave). -/
theorem statistics_reported {α : Type} [Field α] (L : Libm α) (env : Env α) (n : Nat)
    (num_threads num_runs : Int) (hruns : 1 ≤ num_runs) (hn : n * 8 < SIZE_MOD) :
    (∀ (v : Nat) (s : PRState α), v < 3 → num_runs.toNat ≤ capacity s.times →
      ∃ s1 evs r, pr_run_variant L env n num_threads num_runs s v = some s1
        ∧ s1.events = evs ++ [Event.printf r]
        ∧ r.mean = spec_mean (durations env s.ticks num_runs.toNat)
        ∧ r.stddev = spec_stddev L.sqrt (durations env s.ticks num_runs.toNat))
    ∧ (∀ (a : α) (v : Nat) (s : SaxpyState α), v < 3 → num_runs.toNat ≤ capacity s.times →
      ∃ s1 evs r, saxpy_run_variant L env a n num_threads num_runs s v = some s1
        ∧ s1.events = evs ++ [Event.printf r]
        ∧ r.mean = spec_mean (durations env s.ticks num_runs.toNat)
        ∧ r.stddev = spec_stddev L.sqrt (durations env s.ticks num_runs.toNat))
    ∧ (∀ args : List Int, arg_size_t args 0 1000000 = n → arg_int args 1 5 = num_runs →
      (∀ k, k < 3 → env.malloc_ok k (n * 8 % SIZE_MOD) = true) →
      ∃ evs r, pr_seq_main L env args = Outcome.exit 0 (evs ++ [Event.printf r])
        ∧ r.mean = spec_mean (durations env 0 num_runs.toNat)
        ∧ r.stddev = spec_stddev L.sqrt (durations env 0 num_runs.toNat))
    ∧ (∀ args : List Int, arg_size_t args 0 1000000 = n → arg_int args 1 5 = num_runs →
      (∀ k, k < 3 → env.malloc_ok k (n * 4 % SIZE_MOD) = true) →
      ∃ evs r, saxpy_seq_main L env args = Outcome.exit 0 (evs ++ [Event.printf r])
        ∧ r.mean = spec_mean (durations env 0 num_runs.toNat)
        ∧ r.stddev = spec_stddev L.sqrt (durations env 0 num_runs.toNat))
    ∧ (∀ t : List α, spec_mean t = t.sum / (t.length : α))
    ∧ (∀ t : List α, 1 < t.length → spec_stddev L.sqrt t
        = L.sqrt ((t.map (fun d => (d - spec_mean t) * (d - spec_mean t))).sum
            / ((t.length : α) - 1)))
    ∧ (∀ t : List α, t.length = 1 → spec_stddev L.sqrt t = 0)
    ∧ (durations env 0 num_runs.toNat).length = num_runs.toNat := by
  refine ⟨?_, ?_, ?_, ?_, fun t => rfl, ?_, ?_, durations_length env _ _⟩
  · intro v s hv hcap
    obtain ⟨s1, r, hrun, _, _, _, _, hev, _, _, _, hstat⟩ :=
      pr_run_variant_spec L env n num_threads num_runs hn s v hv hcap
    exact ⟨s1, _, r, hrun, hev, (hstat hruns).1, (hstat hruns).2⟩
  · intro a v s hv hcap
    obtain ⟨s1, r, hrun, _, _, _, _, hev, _, _, _, hstat⟩ :=
      saxpy_run_variant_spec L env a n num_threads num_runs s v hv hcap
    exact ⟨s1, _, r, hrun, hev, (hstat hruns).1, (hstat hruns).2⟩
  · intro args hargn hargr hxyz
    subst hargn hargr
    obtain ⟨evs, r, hmain, _, _, _, _, hmean, hstd⟩ := pr_seq_main_spec L env args hxyz hn hruns
    exact ⟨evs, r, hmain, hmean, hstd⟩
  · intro args hargn hargr hxyz
    subst hargn hargr
    obtain ⟨r, hmain, _, _, _, hmean, hstd⟩ :=
      saxpy_seq_main_spec L env args hxyz (by omega) hruns
    exact ⟨[], r, hmain, hmean, hstd⟩
  · intro t ht
    unfold spec_stddev
    rw [if_pos ht]
  · intro t ht
    unfold spec_stddev
    rw [if_neg (by omega)]

/-- C1 on the sample environment: `ingenua` with 3 repetitions of 1000 elements, from
the state in which `main` enters its loop. -/
theorem statistics_reported_witness :
    (1 : Int) ≤ 3 ∧ 1000 * 8 < SIZE_MOD ∧ 1 < 3
    ∧ (3 : Int).toNat ≤ capacity (pr_omp_init (sample_env ℚ 1024) 1000 3 42).times
    ∧ ∃ s1 evs r, pr_run_variant (sample_libm ℚ) (sample_env ℚ 1024) 1000 4 3
          (pr_omp_init (sample_env ℚ 1024) 1000 3 42) 1 = some s1
        ∧ s1.events = evs ++ [Event.printf r]
        ∧ r.mean = spec_mean (durations (sample_env ℚ 1024)
            (pr_omp_init (sample_env ℚ 1024) 1000 3 42).ticks (3 : Int).toNat)
        ∧ r.stddev = spec_stddev (sample_libm ℚ).sqrt (durations (sample_env ℚ 1024)
            (pr_omp_init (sample_env ℚ 1024) 1000 3 42).ticks (3 : Int).toNat) :=
  ⟨by decide, by decide, by decide, by decide,
    (statistics_reported (sample_libm ℚ) (sample_env ℚ 1024) 1000 4 3 (by decide)
      (by decide)).1 1 (pr_omp_init (sample_env ℚ 1024) 1000 3 42) (by decide) (by decide)⟩

/-- C2: in `parallel_region/omp` and `saxpy/omp`, when the allocations succeed, a version
argument `v` with `0 <= v < 3` makes the run exactly one pass of the loop body at index
`v`, and any other `v` (negative, `>= 3`, or the default `-1`) makes it the passes at
`0`, `1`, `2` in that order.  A pass at index `w` calls the kernel `versions[w].fn` once in
each of the `num_runs` repetitions and then prints one record named `versions[w].name`;
so the run takes two clock readings per repetition of each visited variant and prints
one record for `v` in range, three (`seq, ingenua, arrumada`, respectively
`seq, simd, parallel_simd`) otherwise. -/
theorem version_selection {α : Type} [Field α] (L : Libm α) (env : Env α) (args : List Int)
    (hxyz8 : ∀ k, k < 3 → env.malloc_ok k (arg_size_t args 0 1000000 * 8 % SIZE_MOD) = true)
    (hxyz4 : ∀ k, k < 3 → env.malloc_ok k (arg_size_t args 0 1000000 * 4 % SIZE_MOD) = true)
    (hn : arg_size_t args 0 1000000 * 8 < SIZE_MOD)
    (htimes : env.malloc_ok 3 (times_bytes (arg_int args 2 5)) = true ∨ arg_int args 2 5 ≤ 0) :
    (args.length < 5 → arg_int args 4 (-1) = -1)
    ∧ version_range (arg_int args 4 (-1)) 3
        = (if 0 ≤ arg_int args 4 (-1) ∧ arg_int args 4 (-1) < 3
            then [(arg_int args 4 (-1)).toNat] else [0, 1, 2])
    ∧ (∃ s1, pr_omp_main L env args = Outcome.exit 0 s1.events
        ∧ (0 ≤ arg_int args 4 (-1) ∧ arg_int args 4 (-1) < 3 →
            pr_run_variant L env (arg_size_t args 0 1000000) (arg_int args 1 4)
              (arg_int args 2 5)
              (pr_omp_init env (arg_size_t args 0 1000000) (arg_int args 2 5)
                (arg_unsigned args 3 42)) (arg_int args 4 (-1)).toNat = some s1)
        ∧ (¬ (0 ≤ arg_int args 4 (-1) ∧ arg_int args 4 (-1) < 3) →
            ∃ sa sb,
              pr_run_variant L env (arg_size_t args 0 1000000) (arg_int args 1 4)
                (arg_int args 2 5)
                (pr_omp_init env (arg_size_t args 0 1000000) (arg_int args 2 5)
                  (arg_unsigned args 3 42)) 0 = some sa
              ∧ pr_run_variant L env (arg_size_t args 0 1000000) (arg_int args 1 4)
                (arg_int args 2 5) sa 1 = some sb
              ∧ pr_run_variant L env (arg_size_t args 0 1000000) (arg_int args 1 4)
                (arg_int args 2 5) sb 2 = some s1)
        ∧ s1.ticks = 2 * (arg_int args 2 5).toNat
            * (if 0 ≤ arg_int args 4 (-1) ∧ arg_int args 4 (-1) < 3 then 1 else 3)
        ∧ (stdout_records s1.events).map (fun r => r.name)
          = (if 0 ≤ arg_int args 4 (-1) ∧ arg_int args 4 (-1) < 3
              then [((pr_versions L env).map Prod.fst).getD (arg_int args 4 (-1)).toNat ""]
              else ["seq", "ingenua", "arrumada"]))
    ∧ (∃ s1, saxpy_omp_main L env args = Outcome.exit 0 s1.events
        ∧ (0 ≤ arg_int args 4 (-1) ∧ arg_int args 4 (-1) < 3 →
            saxpy_run_variant L env (5 / 2) (arg_size_t args 0 1000000) (arg_int args 1 4)
              (arg_int args 2 5)
              (saxpy_init env (arg_size_t args 0 1000000) (arg_unsigned args 3 42)
                (if env.malloc_ok 3 (times_bytes (arg_int args 2 5))
                  then some (List.replicate (arg_int args 2 5).toNat env.junk) else none))
              (arg_int args 4 (-1)).toNat = some s1)
        ∧ (¬ (0 ≤ arg_int args 4 (-1) ∧ arg_int args 4 (-1) < 3) →
            ∃ sa sb,
              saxpy_run_variant L env (5 / 2) (arg_size_t args 0 1000000) (arg_int args 1 4)
                (arg_int args 2 5)
                (saxpy_init env (arg_size_t args 0 1000000) (arg_unsigned args 3 42)
                  (if env.malloc_ok 3 (times_bytes (arg_int args 2 5))
                    then some (List.replicate (arg_int args 2 5).toNat env.junk) else none))
                0 = some sa
              ∧ saxpy_run_variant L env (5 / 2) (arg_size_t args 0 1000000) (arg_int args 1 4)
                (arg_int args 2 5) sa 1 = some sb
              ∧ saxpy_run_variant L env (5 / 2) (arg_size_t args 0 1000000) (arg_int args 1 4)
                (arg_int args 2 5) sb 2 = some s1)
        ∧ s1.ticks = 2 * (arg_int args 2 5).toNat
            * (if 0 ≤ arg_int args 4 (-1) ∧ arg_int args 4 (-1) < 3 then 1 else 3)
        ∧ (stdout_records s1.events).map (fun r => r.name)
          = (if 0 ≤ arg_int args 4 (-1) ∧ arg_int args 4 (-1) < 3
              then [((saxpy_versions env).map Prod.fst).getD (arg_int args 4 (-1)).toNat ""]
              else ["seq", "simd", "parallel_simd"]))
    ∧ (∀ (s : PRState α) (w : Nat), w < 3 → (arg_int args 2 5).toNat ≤ capacity s.times →
        ∃ nf sR r, (pr_versions L env).get? w = some nf
          ∧ pr_run_loop env nf.2 (arg_size_t args 0 1000000) (arg_int args 2 5).toNat
              { s with total_time := 0 } = some sR
          ∧ pr_run_variant L env (arg_size_t args 0 1000000) (arg_int args 1 4)
              (arg_int args 2 5) s w = some { sR with events := sR.events ++ [Event.printf r] }
          ∧ r.name = nf.1
          ∧ sR.ticks = s.ticks + 2 * (arg_int args 2 5).toNat
          ∧ (volatile_stores sR.events).length
              = (volatile_stores s.events).length + (arg_int args 2 5).toNat
          ∧ ∀ k, k < (arg_int args 2 5).toNat → ∃ sk sk1,
              pr_run_loop env nf.2 (arg_size_t args 0 1000000) k { s with total_time := 0 }
                = some sk
              ∧ pr_rep env nf.2 (arg_size_t args 0 1000000) sk k = some sk1
              ∧ pr_run_loop env nf.2 (arg_size_t args 0 1000000) (k + 1)
                  { s with total_time := 0 } = some sk1
              ∧ (sk1.y, sk1.z) = nf.2 (s.ticks + 2 * k) s.x
                  (List.replicate (arg_size_t args 0 1000000) 0)
                  (List.replicate (arg_size_t args 0 1000000) 0) (arg_size_t args 0 1000000))
    ∧ (∀ (s : SaxpyState α) (w : Nat), w < 3 → (arg_int args 2 5).toNat ≤ capacity s.times →
        ∃ nf sR r, (saxpy_versions env).get? w = some nf
          ∧ saxpy_run_loop env nf.2 (5 / 2) (arg_size_t args 0 1000000) (arg_int args 2 5).toNat
              { s with total_time := 0 } = some sR
          ∧ saxpy_run_variant L env (5 / 2) (arg_size_t args 0 1000000) (arg_int args 1 4)
              (arg_int args 2 5) s w = some { sR with events := sR.events ++ [Event.printf r] }
          ∧ r.name = nf.1
          ∧ sR.ticks = s.ticks + 2 * (arg_int args 2 5).toNat
          ∧ ∀ k, k < (arg_int args 2 5).toNat → ∃ sk sk1,
              saxpy_run_loop env nf.2 (5 / 2) (arg_size_t args 0 1000000) k
                { s with total_time := 0 } = some sk
              ∧ saxpy_rep env nf.2 (5 / 2) (arg_size_t args 0 1000000) sk k = some sk1
              ∧ saxpy_run_loop env nf.2 (5 / 2) (arg_size_t args 0 1000000) (k + 1)
                  { s with total_time := 0 } = some sk1
              ∧ sk1.y = nf.2 (s.ticks + 2 * k) (5 / 2) s.x s.y_backup
                  (arg_size_t args 0 1000000)) := by
  have hlen : (version_range (arg_int args 4 (-1)) 3).length
      = (if 0 ≤ arg_int args 4 (-1) ∧ arg_int args 4 (-1) < 3 then 1 else 3) := by
    rw [version_range_eq]
    by_cases hv : 0 ≤ arg_int args 4 (-1) ∧ arg_int args 4 (-1) < 3
    · rw [if_pos hv, if_pos hv]; rfl
    · rw [if_neg hv, if_neg hv]; rfl
  refine ⟨?_, version_range_eq _, ?_, ?_, ?_, ?_⟩
  · intro hlen
    unfold arg_int
    rw [List.get?_eq_none.mpr (by omega)]
  · obtain ⟨s1, hfold, hmain, hticks, hrec⟩ := pr_omp_main_spec L env args hxyz8 hn htimes
    rw [foldlM_version_range] at hfold
    refine ⟨s1, hmain, ?_, ?_, ?_, ?_⟩
    · intro hv
      rw [if_pos hv] at hfold
      exact hfold
    · intro hv
      rw [if_neg hv] at hfold
      obtain ⟨sa, ha, hrest⟩ := Option.bind_eq_some.mp hfold
      obtain ⟨sb, hb, hc⟩ := Option.bind_eq_some.mp hrest
      exact ⟨sa, sb, ha, hb, hc⟩
    · rw [hticks, hlen]
    · have h := congrArg (List.map (fun p : String × Nat × Int => p.1)) hrec
      rw [List.map_map, List.map_map] at h
      change (stdout_records s1.events).map (fun r => r.name) = _ at h
      rw [h, version_range_eq]
      by_cases hv : 0 ≤ arg_int args 4 (-1) ∧ arg_int args 4 (-1) < 3
      · rw [if_pos hv, if_pos hv]
        rfl
      · rw [if_neg hv, if_neg hv]
        rfl
  · obtain ⟨s1, hfold, hmain, hticks, hrec⟩ :=
      saxpy_omp_main_spec L env args hxyz4 (by omega) htimes
    rw [foldlM_version_range] at hfold
    refine ⟨s1, hmain, ?_, ?_, ?_, ?_⟩
    · intro hv
      rw [if_pos hv] at hfold
      exact hfold
    · intro hv
      rw [if_neg hv] at hfold
      obtain ⟨sa, ha, hrest⟩ := Option.bind_eq_some.mp hfold
      obtain ⟨sb, hb, hc⟩ := Option.bind_eq_some.mp hrest
      exact ⟨sa, sb, ha, hb, hc⟩
    · rw [hticks, hlen]
    · have h := congrArg (List.map (fun p : String × Nat × Int => p.1)) hrec
      rw [List.map_map, List.map_map] at h
      change (stdout_records s1.events).map (fun r => r.name) = _ at h
      rw [h, version_range_eq]
      by_cases hv : 0 ≤ arg_int args 4 (-1) ∧ arg_int args 4 (-1) < 3
      · rw [if_pos hv, if_pos hv]
        rfl
      · rw [if_neg hv, if_neg hv]
        rfl
  · intro s w hw hcap
    obtain ⟨nf, sR, r, hget, hloop, hrun, hname, _, _, _, hticks, hvol, hreps⟩ :=
      pr_run_variant_exec L env (arg_size_t args 0 1000000) (arg_int args 1 4)
        (arg_int args 2 5) hn s w hw hcap
    exact ⟨nf, sR, r, hget, hloop, hrun, hname, hticks, hvol, hreps⟩
  · intro s w hw hcap
    obtain ⟨nf, sR, r, hget, hloop, hrun, hname, _, _, _, _, hticks, hreps⟩ :=
      saxpy_run_variant_exec L env (5 / 2) (arg_size_t args 0 1000000) (arg_int args 1 4)
        (arg_int args 2 5) s w hw hcap
    exact ⟨nf, sR, r, hget, hloop, hrun, hname, hticks, hreps⟩

/-- C2 on the sample environment, for `n = 1000`, 4 threads, 5 repetitions, seed 42 and
the out-of-range version 7: `saxpy/omp` runs the passes at 0, 1, 2 and prints three
records. -/
theorem version_selection_witness :
    (∀ k, k < 3 → (sample_env ℚ 65536).malloc_ok k
        (arg_size_t [1000, 4, 5, 42, 7] 0 1000000 * 8 % SIZE_MOD) = true)
    ∧ (∀ k, k < 3 → (sample_env ℚ 65536).malloc_ok k
        (arg_size_t [1000, 4, 5, 42, 7] 0 1000000 * 4 % SIZE_MOD) = true)
    ∧ arg_size_t [1000, 4, 5, 42, 7] 0 1000000 * 8 < SIZE_MOD
    ∧ (sample_env ℚ 65536).malloc_ok 3 (times_bytes (arg_int [1000, 4, 5, 42, 7] 2 5)) = true
    ∧ ∃ s1 : SaxpyState ℚ,
        saxpy_omp_main (sample_libm ℚ) (sample_env ℚ 65536) [1000, 4, 5, 42, 7]
          = Outcome.exit 0 s1.events
        ∧ s1.ticks = 2 * (arg_int [1000, 4, 5, 42, 7] 2 5).toNat
            * (if 0 ≤ arg_int [1000, 4, 5, 42, 7] 4 (-1) ∧ arg_int [1000, 4, 5, 42, 7] 4 (-1) < 3
                then 1 else 3)
        ∧ (stdout_records s1.events).map (fun r => r.name)
          = (if 0 ≤ arg_int [1000, 4, 5, 42, 7] 4 (-1) ∧ arg_int [1000, 4, 5, 42, 7] 4 (-1) < 3
              then [((saxpy_versions (sample_env ℚ 65536)).map Prod.fst).getD
                (arg_int [1000, 4, 5, 42, 7] 4 (-1)).toNat ""]
              else ["seq", "simd", "parallel_simd"]) :=
  ⟨fun _ _ => rfl, fun _ _ => rfl, by decide, by decide, by
    obtain ⟨s1, hmain, _, _, hticks, hnames⟩ :=
      (version_selection (sample_libm ℚ) (sample_env ℚ 65536) [1000, 4, 5, 42, 7]
        (fun _ _ => rfl) (fun _ _ => rfl) (by decide) (Or.inl (by decide))).2.2.2.1
    exact ⟨s1, hmain, hticks, hnames⟩⟩

/-- C3: with `T` the configured thread count, the pass of the loop at index `w` runs the
kernel `versions[w].fn` and prints one record, named `versions[w].name`, whose
`effective_threads` is 1 when the kernel is `process_sequential` (index 0 of
`parallel_region`), `saxpy_seq` or `saxpy_simd` (indices 0 and 1 of `saxpy`), and is `T`
when it is `process_ingenua`, `process_arrumada` (indices 1 and 2) or
`saxpy_parallel_simd` (index 2).  In a run of `parallel_region/omp` or `saxpy/omp` whose
allocations succeed, the printed records are, in order, those of the visited indices. -/
theorem effective_worker_count {α : Type} [Field α] (L : Libm α) (env : Env α)
    (args : List Int)
    (hxyz8 : ∀ k, k < 3 → env.malloc_ok k (arg_size_t args 0 1000000 * 8 % SIZE_MOD) = true)
    (hxyz4 : ∀ k, k < 3 → env.malloc_ok k (arg_size_t args 0 1000000 * 4 % SIZE_MOD) = true)
    (hn : arg_size_t args 0 1000000 * 8 < SIZE_MOD)
    (htimes : env.malloc_ok 3 (times_bytes (arg_int args 2 5)) = true ∨ arg_int args 2 5 ≤ 0) :
    ((pr_versions L env).get? 0 = some ("seq", fun _ x y z n => process_sequential L x y z n)
      ∧ (pr_versions L env).get? 1 = some ("ingenua", fun id x y z n =>
          process_ingenua L (env.sched id 0 n) (env.sched id 1 n) x y z)
      ∧ (pr_versions L env).get? 2 = some ("arrumada", fun id x y z n =>
          process_arrumada L (env.sched id 0 n) (env.sched id 1 n) x y z))
    ∧ ((saxpy_versions env).get? 0 = some ("seq", fun _ a x y n => saxpy_seq a x y n)
      ∧ (saxpy_versions env).get? 1 = some ("simd", fun id a x y n =>
          saxpy_simd a (env.sched id 0 n) x y)
      ∧ (saxpy_versions env).get? 2 = some ("parallel_simd", fun id a x y n =>
          saxpy_parallel_simd a (env.sched id 0 n) x y))
    ∧ (∀ (s : PRState α) (w : Nat), w < 3 → (arg_int args 2 5).toNat ≤ capacity s.times →
        ∃ nf sR r, (pr_versions L env).get? w = some nf
          ∧ pr_run_loop env nf.2 (arg_size_t args 0 1000000) (arg_int args 2 5).toNat
              { s with total_time := 0 } = some sR
          ∧ pr_run_variant L env (arg_size_t args 0 1000000) (arg_int args 1 4)
              (arg_int args 2 5) s w = some { sR with events := sR.events ++ [Event.printf r] }
          ∧ r.name = nf.1
          ∧ r.n = arg_size_t args 0 1000000
          ∧ r.effective_threads = (if w = 0 then 1 else arg_int args 1 4)
          ∧ ∀ k, k < (arg_int args 2 5).toNat → ∃ sk sk1,
              pr_run_loop env nf.2 (arg_size_t args 0 1000000) k { s with total_time := 0 }
                = some sk
              ∧ pr_rep env nf.2 (arg_size_t args 0 1000000) sk k = some sk1
              ∧ pr_run_loop env nf.2 (arg_size_t args 0 1000000) (k + 1)
                  { s with total_time := 0 } = some sk1
              ∧ (sk1.y, sk1.z) = nf.2 (s.ticks + 2 * k) s.x
                  (List.replicate (arg_size_t args 0 1000000) 0)
                  (List.replicate (arg_size_t args 0 1000000) 0) (arg_size_t args 0 1000000))
    ∧ (∀ (s : SaxpyState α) (w : Nat), w < 3 → (arg_int args 2 5).toNat ≤ capacity s.times →
        ∃ nf sR r, (saxpy_versions env).get? w = some nf
          ∧ saxpy_run_loop env nf.2 (5 / 2) (arg_size_t args 0 1000000) (arg_int args 2 5).toNat
              { s with total_time := 0 } = some sR
          ∧ saxpy_run_variant L env (5 / 2) (arg_size_t args 0 1000000) (arg_int args 1 4)
              (arg_int args 2 5) s w = some { sR with events := sR.events ++ [Event.printf r] }
          ∧ r.name = nf.1
          ∧ r.n = arg_size_t args 0 1000000
          ∧ r.effective_threads = (if w = 2 then arg_int args 1 4 else 1)
          ∧ ∀ k, k < (arg_int args 2 5).toNat → ∃ sk sk1,
              saxpy_run_loop env nf.2 (5 / 2) (arg_size_t args 0 1000000) k
                { s with total_time := 0 } = some sk
              ∧ saxpy_rep env nf.2 (5 / 2) (arg_size_t args 0 1000000) sk k = some sk1
              ∧ saxpy_run_loop env nf.2 (5 / 2) (arg_size_t args 0 1000000) (k + 1)
                  { s with total_time := 0 } = some sk1
              ∧ sk1.y = nf.2 (s.ticks + 2 * k) (5 / 2) s.x s.y_backup
                  (arg_size_t args 0 1000000))
    ∧ (∃ s1, (version_range (arg_int args 4 (-1)) 3).foldlM
          (pr_run_variant L env (arg_size_t args 0 1000000) (arg_int args 1 4)
            (arg_int args 2 5))
          (pr_omp_init env (arg_size_t args 0 1000000) (arg_int args 2 5)
            (arg_unsigned args 3 42)) = some s1
      ∧ pr_omp_main L env args = Outcome.exit 0 s1.events
      ∧ (stdout_records s1.events).map (fun r => (r.name, r.n, r.effective_threads))
          = (version_range (arg_int args 4 (-1)) 3).map (fun v =>
              (((pr_versions L env).map Prod.fst).getD v "", arg_size_t args 0 1000000,
                if v = 0 then 1 else arg_int args 1 4))
      ∧ (stdout_records s1.events).length = (version_range (arg_int args 4 (-1)) 3).length
      ∧ ∀ r ∈ stdout_records s1.events,
          (r.name = "seq" ∨ r.name = "ingenua" ∨ r.name = "arrumada")
          ∧ (r.name = "seq" → r.effective_threads = 1)
          ∧ (r.name = "ingenua" ∨ r.name = "arrumada" → r.effective_threads = arg_int args 1 4))
    ∧ (∃ s1, (version_range (arg_int args 4 (-1)) 3).foldlM
          (saxpy_run_variant L env (5 / 2) (arg_size_t args 0 1000000) (arg_int args 1 4)
            (arg_int args 2 5))
          (saxpy_init env (arg_size_t args 0 1000000) (arg_unsigned args 3 42)
            (if env.malloc_ok 3 (times_bytes (arg_int args 2 5))
              then some (List.replicate (arg_int args 2 5).toNat env.junk) else none)) = some s1
      ∧ saxpy_omp_main L env args = Outcome.exit 0 s1.events
      ∧ (stdout_records s1.events).map (fun r => (r.name, r.n, r.effective_threads))
          = (version_range (arg_int args 4 (-1)) 3).map (fun v =>
              (((saxpy_versions env).map Prod.fst).getD v "", arg_size_t args 0 1000000,
                if v = 2 then arg_int args 1 4 else 1))
      ∧ (stdout_records s1.events).length = (version_range (arg_int args 4 (-1)) 3).length
      ∧ ∀ r ∈ stdout_records s1.events,
          (r.name = "seq" ∨ r.name = "simd" ∨ r.name = "parallel_simd")
          ∧ (r.name = "seq" ∨ r.name = "simd" → r.effective_threads = 1)
          ∧ (r.name = "parallel_simd" → r.effective_threads = arg_int args 1 4)) := by
  refine ⟨⟨rfl, rfl, rfl⟩, ⟨rfl, rfl, rfl⟩, ?_, ?_, ?_, ?_⟩
  · intro s w hw hcap
    obtain ⟨nf, sR, r, hget, hloop, hrun, hname, hrn, hthr, _, _, _, hreps⟩ :=
      pr_run_variant_exec L env (arg_size_t args 0 1000000) (arg_int args 1 4)
        (arg_int args 2 5) hn s w hw hcap
    exact ⟨nf, sR, r, hget, hloop, hrun, hname, hrn, hthr, hreps⟩
  · intro s w hw hcap
    obtain ⟨nf, sR, r, hget, hloop, hrun, hname, hrn, hthr, _, _, _, hreps⟩ :=
      saxpy_run_variant_exec L env (5 / 2) (arg_size_t args 0 1000000) (arg_int args 1 4)
        (arg_int args 2 5) s w hw hcap
    exact ⟨nf, sR, r, hget, hloop, hrun, hname, hrn, hthr, hreps⟩
  · obtain ⟨s1, hfold, hmain, _, hrec⟩ := pr_omp_main_spec L env args hxyz8 hn htimes
    refine ⟨s1, hfold, hmain, hrec, ?_, ?_⟩
    · have := congrArg List.length hrec
      simpa using this
    · intro r hr
      have hmem : (r.name, r.n, r.effective_threads)
          ∈ (stdout_records s1.events).map (fun r => (r.name, r.n, r.effective_threads)) :=
        List.mem_map.mpr ⟨r, hr, rfl⟩
      rw [hrec, List.mem_map] at hmem
      obtain ⟨v, hv, heq⟩ := hmem
      have hv3 := version_range_lt _ v hv
      simp only [Prod.mk.injEq] at heq
      obtain ⟨hname, _, hthr⟩ := heq
      rw [← hname, ← hthr]
      interval_cases v <;> simp
  · obtain ⟨s1, hfold, hmain, _, hrec⟩ :=
      saxpy_omp_main_spec L env args hxyz4 (by omega) htimes
    refine ⟨s1, hfold, hmain, hrec, ?_, ?_⟩
    · have := congrArg List.length hrec
      simpa using this
    · intro r hr
      have hmem : (r.name, r.n, r.effective_threads)
          ∈ (stdout_records s1.events).map (fun r => (r.name, r.n, r.effective_threads)) :=
        List.mem_map.mpr ⟨r, hr, rfl⟩
      rw [hrec, List.mem_map] at hmem
      obtain ⟨v, hv, heq⟩ := hmem
      have hv3 := version_range_lt _ v hv
      simp only [Prod.mk.injEq] at heq
      obtain ⟨hname, _, hthr⟩ := heq
      rw [← hname, ← hthr]
      interval_cases v <;> simp

/-- C3 on the sample environment, all variants of `saxpy/omp`, 8 threads. -/
theorem effective_worker_count_witness :
    (∀ k, k < 3 → (sample_env ℚ 65536).malloc_ok k
        (arg_size_t [100, 8, 2] 0 1000000 * 8 % SIZE_MOD) = true)
    ∧ (∀ k, k < 3 → (sample_env ℚ 65536).malloc_ok k
        (arg_size_t [100, 8, 2] 0 1000000 * 4 % SIZE_MOD) = true)
    ∧ arg_size_t [100, 8, 2] 0 1000000 * 8 < SIZE_MOD
    ∧ (sample_env ℚ 65536).malloc_ok 3 (times_bytes (arg_int [100, 8, 2] 2 5)) = true
    ∧ ∃ s1 : SaxpyState ℚ,
        saxpy_omp_main (sample_libm ℚ) (sample_env ℚ 65536) [100, 8, 2]
          = Outcome.exit 0 s1.events
      ∧ (stdout_records s1.events).map (fun r => (r.name, r.n, r.effective_threads))
          = (version_range (arg_int [100, 8, 2] 4 (-1)) 3).map (fun v =>
              (((saxpy_versions (sample_env ℚ 65536)).map Prod.fst).getD v "",
                arg_size_t [100, 8, 2] 0 1000000,
                if v = 2 then arg_int [100, 8, 2] 1 4 else 1)) :=
  ⟨fun _ _ => rfl, fun _ _ => rfl, by decide, by decide, by
    obtain ⟨s1, _, hmain, hrec, _⟩ :=
      (effective_worker_count (sample_libm ℚ) (sample_env ℚ 65536) [100, 8, 2]
        (fun _ _ => rfl) (fun _ _ => rfl) (by decide) (Or.inl (by decide))).2.2.2.2.2
    exact ⟨s1, hmain, hrec⟩⟩

theorem subsample_sum_nonneg (y z : List ℝ) (n : Nat)
    (h : ∀ i, i < n → 0 ≤ y.getD i 0 ∧ 0 ≤ z.getD i 0) : 0 ≤ subsample_sum y z n := by
  unfold subsample_sum
  apply foldl_add_nonneg (fun i => y.getD i 0 + z.getD i 0) _ _ 0 (le_refl 0)
  intro i hi
  rw [List.mem_map] at hi
  obtain ⟨k, hk, rfl⟩ := hi
  have := h _ (strided_index_lt n k (List.mem_range.mp hk))
  linarith

/-- C6: with `0 < RAND_MAX` and every draw `r` in `0 .. RAND_MAX`, the value
`0.1 + 9.9 * r / RAND_MAX` that `init_vector` stores lies in `[0.1, 10]`, so does every
element of the generated buffer; and for every `x` in `[0.1, 10]` the argument of `sqrt`
is non-negative and the argument `y + 1` of `log`, with `y = sin(x)*cos(x) + sqrt(x)`, is
positive (over the reals).  The arguments are those of the calls: for any functions in
place of `sin`, `cos`, `sqrt`, `log`, `exp`, every kernel of the registry run on the
generated buffer stores `sin(x[i]) * cos(x[i]) + sqrt(x[i])` in `y[i]` and
`log(y[i] + 1) * exp(-y[i] * 0.01)` in `z[i]`; with the real `sin`, `cos`, `sqrt` the
argument `x[i]` of `sqrt` is non-negative and the argument `y[i] + 1` of `log` is
positive. -/
theorem generator_domain_safe (env : Env ℝ) (hR : 0 < env.RAND_MAX)
    (hrand : ∀ seed k, env.rand seed k ≤ env.RAND_MAX) :
    (∀ r : Nat, r ≤ env.RAND_MAX →
      (1 / 10 : ℝ) ≤ init_value env.RAND_MAX r ∧ (init_value env.RAND_MAX r : ℝ) ≤ 10)
    ∧ (∀ n seed i : Nat, i < n →
      1 / 10 ≤ (init_vector env (List.replicate n env.junk) n seed).getD i 0
      ∧ (init_vector env (List.replicate n env.junk) n seed).getD i 0 ≤ 10)
    ∧ (∀ x : ℝ, 1 / 10 ≤ x → x ≤ 10 →
      0 ≤ x ∧ 0 < (Real.sin x * Real.cos x + Real.sqrt x) + 1)
    ∧ (∀ (n seed : Nat) (y z : List ℝ) (i : Nat), i < n → y.length = n →
      0 ≤ (init_vector env (List.replicate n env.junk) n seed).getD i 0
      ∧ (process_sequential (Libm.mk Real.sin Real.cos Real.sqrt Real.log Real.exp)
            (init_vector env (List.replicate n env.junk) n seed) y z n).1.getD i 0
          = Real.sin ((init_vector env (List.replicate n env.junk) n seed).getD i 0)
            * Real.cos ((init_vector env (List.replicate n env.junk) n seed).getD i 0)
            + Real.sqrt ((init_vector env (List.replicate n env.junk) n seed).getD i 0)
      ∧ 0 < (process_sequential (Libm.mk Real.sin Real.cos Real.sqrt Real.log Real.exp)
            (init_vector env (List.replicate n env.junk) n seed) y z n).1.getD i 0 + 1)
    ∧ (∀ (L : Libm ℝ), ∀ nf ∈ pr_versions L env,
      ∀ (n seed id : Nat) (y z : List ℝ) (i : Nat), i < n → y.length = n → z.length = n →
      (nf.2 id (init_vector env (List.replicate n env.junk) n seed) y z n).1.getD i 0
          = L.sin ((init_vector env (List.replicate n env.junk) n seed).getD i 0)
            * L.cos ((init_vector env (List.replicate n env.junk) n seed).getD i 0)
            + L.sqrt ((init_vector env (List.replicate n env.junk) n seed).getD i 0)
      ∧ (nf.2 id (init_vector env (List.replicate n env.junk) n seed) y z n).2.getD i 0
          = L.log ((nf.2 id (init_vector env (List.replicate n env.junk) n seed)
                y z n).1.getD i 0 + 1)
            * L.exp (-((nf.2 id (init_vector env (List.replicate n env.junk) n seed)
                y z n).1.getD i 0) * (1 / 100)))
    ∧ (∀ (lg ex : ℝ → ℝ), ∀ nf ∈ pr_versions (Libm.mk Real.sin Real.cos Real.sqrt lg ex) env,
      ∀ (n seed id : Nat) (y z : List ℝ) (i : Nat), i < n → y.length = n → z.length = n →
      0 ≤ (init_vector env (List.replicate n env.junk) n seed).getD i 0
      ∧ 0 < (nf.2 id (init_vector env (List.replicate n env.junk) n seed) y z n).1.getD i 0 + 1
      ∧ (nf.2 id (init_vector env (List.replicate n env.junk) n seed) y z n).2.getD i 0
          = lg ((nf.2 id (init_vector env (List.replicate n env.junk) n seed)
                y z n).1.getD i 0 + 1)
            * ex (-((nf.2 id (init_vector env (List.replicate n env.junk) n seed)
                y z n).1.getD i 0) * (1 / 100))) := by
  have hgen : ∀ n seed i : Nat, i < n →
      1 / 10 ≤ (init_vector env (List.replicate n env.junk) n seed).getD i 0
      ∧ (init_vector env (List.replicate n env.junk) n seed).getD i 0 ≤ 10 := by
    intro n seed i hi
    rw [init_vector_getD, if_pos ⟨hi, by simpa using hi⟩]
    exact init_value_bounds _ _ hR (hrand seed i)
  have hcall : ∀ (L : Libm ℝ), ∀ nf ∈ pr_versions L env,
      ∀ (n seed id : Nat) (y z : List ℝ) (i : Nat), i < n → y.length = n → z.length = n →
      (nf.2 id (init_vector env (List.replicate n env.junk) n seed) y z n).1.getD i 0
          = L.sin ((init_vector env (List.replicate n env.junk) n seed).getD i 0)
            * L.cos ((init_vector env (List.replicate n env.junk) n seed).getD i 0)
            + L.sqrt ((init_vector env (List.replicate n env.junk) n seed).getD i 0)
      ∧ (nf.2 id (init_vector env (List.replicate n env.junk) n seed) y z n).2.getD i 0
          = L.log ((nf.2 id (init_vector env (List.replicate n env.junk) n seed)
                y z n).1.getD i 0 + 1)
            * L.exp (-((nf.2 id (init_vector env (List.replicate n env.junk) n seed)
                y z n).1.getD i 0) * (1 / 100)) := by
    intro L nf hnf n seed id y z i hi hy hz
    rw [pr_versions_eq L env nf hnf id _ y z n]
    constructor
    · rw [process_sequential_fst_getD, if_pos ⟨hi, by omega⟩]
    · rw [process_sequential_snd_getD, if_pos ⟨hi, by omega⟩]
  refine ⟨fun r hr => init_value_bounds _ _ hR hr, hgen, ?_, ?_, hcall, ?_⟩
  · intro x h1 _
    have hx : 0 ≤ x := by linarith
    have := loop1_value_nonneg x hx
    exact ⟨hx, by linarith⟩
  · intro n seed y z i hi hlen
    have hx : 0 ≤ (init_vector env (List.replicate n env.junk) n seed).getD i 0 := by
      have := (hgen n seed i hi).1
      linarith
    have hval := process_sequential_fst_getD
      (Libm.mk Real.sin Real.cos Real.sqrt Real.log Real.exp)
      (init_vector env (List.replicate n env.junk) n seed) y z n i
    rw [if_pos ⟨hi, by omega⟩] at hval
    refine ⟨hx, hval, ?_⟩
    rw [hval]
    have := loop1_value_nonneg _ hx
    linarith
  · intro lg ex nf hnf n seed id y z i hi hy hz
    have hx : 0 ≤ (init_vector env (List.replicate n env.junk) n seed).getD i 0 := by
      have := (hgen n seed i hi).1
      linarith
    obtain ⟨h1, h2⟩ := hcall (Libm.mk Real.sin Real.cos Real.sqrt lg ex) nf hnf n seed id y z i
      hi hy hz
    refine ⟨hx, ?_, h2⟩
    rw [h1]
    have := loop1_value_nonneg _ hx
    show 0 < Real.sin _ * Real.cos _ + Real.sqrt _ + 1
    linarith

/-- C6 on the sample generator (`RAND_MAX = 2^31 - 1`), at the draw `1073741823`. -/
theorem generator_domain_safe_witness :
    0 < (sample_env ℝ 0).RAND_MAX
    ∧ (∀ seed k, (sample_env ℝ 0).rand seed k ≤ (sample_env ℝ 0).RAND_MAX)
    ∧ 1073741823 ≤ (sample_env ℝ 0).RAND_MAX
    ∧ (1 / 10 : ℝ) ≤ init_value (sample_env ℝ 0).RAND_MAX 1073741823
    ∧ (init_value (sample_env ℝ 0).RAND_MAX 1073741823 : ℝ) ≤ 10 :=
  ⟨by decide,
    fun seed k => Nat.le_of_lt_succ (Nat.mod_lt _ (by decide)),
    by decide,
    (generator_domain_safe (sample_env ℝ 0) (by decide)
      (fun seed k => Nat.le_of_lt_succ (Nat.mod_lt _ (by decide)))).1 1073741823 (by decide)⟩

/-- C9: for `n` with `n + n/100 + 1` below `2^64` and a buffer `x` with elements in
`[0.1, 10]`, after any variant of `parallel_region` has run every sampled `y[i]` and
`z[i]` is non-negative, `use_results(y, z, n)` returns a non-negative sum, and one
repetition of the driver does not decrease `dummy_sum` (over the reals). -/
theorem sentinel_monotone (env : Env ℝ) (n : Nat) (hn : n + n / 100 + 1 < SIZE_MOD)
    (x : List ℝ) (hx : ∀ e ∈ x, 1 / 10 ≤ e ∧ e ≤ 10) :
    (∀ nf ∈ pr_versions (Libm.mk Real.sin Real.cos Real.sqrt Real.log Real.exp) env,
      ∀ (id : Nat) (y z : List ℝ),
        (∀ i, i < n → 0 ≤ (nf.2 id x y z n).1.getD i 0 ∧ 0 ≤ (nf.2 id x y z n).2.getD i 0)
        ∧ ∃ u, use_results (n + 1) (nf.2 id x y z n).1 (nf.2 id x y z n).2 n = some u ∧ 0 ≤ u)
    ∧ (∀ nf ∈ pr_versions (Libm.mk Real.sin Real.cos Real.sqrt Real.log Real.exp) env,
      ∀ (s : PRState ℝ) (run : Nat), s.x = x → 0 < capacity s.times →
        ∃ s1, pr_rep env nf.2 n s run = some s1 ∧ s.dummy_sum ≤ s1.dummy_sum) := by
  constructor
  · intro nf hnf id y z
    rw [pr_versions_eq _ env nf hnf id x y z n]
    have hnonneg := fun i hi => process_sequential_real_nonneg x y z n hx i hi
    refine ⟨hnonneg, _, use_results_eq _ _ n hn, subsample_sum_nonneg _ _ n hnonneg⟩
  · intro nf hnf s run hsx hcap
    obtain ⟨t, ht⟩ := capacity_pos_some s.times 0 hcap
    rw [pr_rep_eq _ env nf.2 n (fun id x y z => pr_versions_eq _ env nf hnf id x y z n) hn s t ht
      run]
    refine ⟨_, rfl, ?_⟩
    have := subsample_sum_nonneg _ _ n
      (fun i hi => process_sequential_real_nonneg s.x (List.replicate n 0) (List.replicate n 0)
        n (by rw [hsx]; exact hx) i hi)
    show s.dummy_sum ≤ s.dummy_sum + _
    linarith

/-- C9 on the buffer `[1/10, 1, 10]`. -/
theorem sentinel_monotone_witness :
    3 + 3 / 100 + 1 < SIZE_MOD
    ∧ (∀ e ∈ ([1 / 10, 1, 10] : List ℝ), 1 / 10 ≤ e ∧ e ≤ 10)
    ∧ ∀ nf ∈ pr_versions (Libm.mk Real.sin Real.cos Real.sqrt Real.log Real.exp) (sample_env ℝ 0),
      ∀ (id : Nat) (y z : List ℝ),
        (∀ i, i < 3 → 0 ≤ (nf.2 id [1 / 10, 1, 10] y z 3).1.getD i 0
          ∧ 0 ≤ (nf.2 id [1 / 10, 1, 10] y z 3).2.getD i 0)
        ∧ ∃ u, use_results (3 + 1) (nf.2 id [1 / 10, 1, 10] y z 3).1
            (nf.2 id [1 / 10, 1, 10] y z 3).2 3 = some u ∧ 0 ≤ u :=
  ⟨by decide, by intro e he; simp at he; rcases he with rfl | rfl | rfl <;> norm_num,
    (sentinel_monotone (sample_env ℝ 0) 3 (by decide) [1 / 10, 1, 10]
      (by intro e he; simp at he; rcases he with rfl | rfl | rfl <;> norm_num)).1⟩

theorem sum_map_const {α : Type} [Field α] (k : Nat) (c : α) :
    ((List.range k).map (fun _ => c)).sum = (k : α) * c := by
  induction k with
  | zero => simp
  | succ k ih =>
    rw [List.range_succ, List.map_append, List.sum_append, ih]
    simp only [List.map_cons, List.map_nil, List.sum_cons, List.sum_nil, add_zero]
    push_cast
    rw [add_one_mul]

/-- C8, amended: in the `parallel_region` drivers, for `n * 8` below `2^64`, every
repetition of a variant feeds the sentinel after the invocation.  With `u j` the sum
`use_results` returns on the output buffers of repetition `j`, after `k <= R`
repetitions `dummy_sum` is its value before plus `u 0 + ... + u (k-1)`, and each
repetition stores the running total; over the variants `vs` the total keeps growing,
without a reset.  The `saxpy` drivers have no sentinel: their repetitions store
nothing. -/
theorem sentinel_fed_each_repetition {α : Type} [Field α] (L : Libm α) (env : Env α)
    (n : Nat) (hn : n * 8 < SIZE_MOD) (R : Nat) :
    (∀ nf ∈ pr_versions L env, ∀ s : PRState α, R ≤ capacity s.times →
      ∃ u : Nat → α,
        (∀ j, j < R → ∃ sj, pr_run_loop env nf.2 n j s = some sj
          ∧ use_results (n + 1) (pr_timed_call env nf.2 n (pr_reset n sj)).1.y
              (pr_timed_call env nf.2 n (pr_reset n sj)).1.z n = some (u j))
        ∧ ∀ k, k ≤ R → ∃ sk, pr_run_loop env nf.2 n k s = some sk
          ∧ sk.dummy_sum = s.dummy_sum + ((List.range k).map u).sum
          ∧ volatile_stores sk.events = volatile_stores s.events
              ++ (List.range k).map (fun j => s.dummy_sum + ((List.range (j + 1)).map u).sum))
    ∧ (∀ (num_threads : Int) (vs : List Nat) (s : PRState α), (∀ w ∈ vs, w < 3) →
        R ≤ capacity s.times →
        ∃ s1, vs.foldlM (pr_run_variant L env n num_threads (R : Int)) s = some s1
          ∧ s1.dummy_sum = s.dummy_sum + ((vs.length : α) * (R : α)) * pr_sentinel L s.x n)
    ∧ (∀ nf ∈ saxpy_versions env, ∀ (a : α) (s : SaxpyState α), R ≤ capacity s.times →
        ∃ sR, saxpy_run_loop env nf.2 a n R s = some sR ∧ sR.events = s.events) := by
  have hb := size_bound_of_bytes n hn
  refine ⟨?_, ?_, ?_⟩
  · intro nf hnf s hcap
    have hfn : ∀ id x y z, nf.2 id x y z n = process_sequential L x y z n :=
      fun id x y z => pr_versions_eq L env nf hnf id x y z n
    refine ⟨fun _ => pr_sentinel L s.x n, ?_, ?_⟩
    · intro j hj
      obtain ⟨sj, hloop, hx, _⟩ :=
        pr_run_loop_capacity L env nf.2 n hfn hb s j (by omega)
      refine ⟨sj, hloop, ?_⟩
      unfold pr_timed_call pr_reset
      simp only [hfn, hx]
      exact use_results_eq _ _ n hb
    · intro k hk
      obtain ⟨sk, hloop, _, _, _, _, _, hdummy, hev, _⟩ :=
        pr_run_loop_capacity L env nf.2 n hfn hb s k (by omega)
      refine ⟨sk, hloop, ?_, ?_⟩
      · rw [hdummy, sum_map_const]
      · rw [hev, volatile_stores_append, volatile_stores_stores]
        congr 1
        apply List.map_congr_left
        intro j _
        rw [sum_map_const]
        push_cast
        rfl
  · intro num_threads vs s hvs hcap
    obtain ⟨s1, hloop, _, _, _, hdummy, _⟩ :=
      pr_versions_loop_spec L env n num_threads (R : Int) hn vs hvs s (by simpa using hcap)
    refine ⟨s1, hloop, ?_⟩
    rw [hdummy]
    simp
  · intro nf hnf a s hcap
    obtain ⟨sR, hloop, _, _, _, _, _, _, hev, _⟩ :=
      saxpy_run_loop_capacity env nf.2 a n
        (fun id x y => saxpy_versions_eq env nf hnf id a x y n) s R hcap
    exact ⟨sR, hloop, hev⟩

/-- C8, amended, on the sample environment: 3 repetitions on 4 elements. -/
theorem sentinel_fed_each_repetition_witness :
    4 * 8 < SIZE_MOD
    ∧ (3 ≤ capacity (pr_omp_init (sample_env ℚ 1024) 4 3 42).times)
    ∧ ∃ s1, [0, 1, 2].foldlM
          (pr_run_variant (sample_libm ℚ) (sample_env ℚ 1024) 4 4 ((3 : Nat) : Int))
          (pr_omp_init (sample_env ℚ 1024) 4 3 42) = some s1
        ∧ s1.dummy_sum = (pr_omp_init (sample_env ℚ 1024) 4 3 42).dummy_sum
            + ((([0, 1, 2] : List Nat).length : ℚ) * ((3 : Nat) : ℚ))
              * pr_sentinel (sample_libm ℚ) (pr_omp_init (sample_env ℚ 1024) 4 3 42).x 4 :=
  ⟨by decide, by decide,
    (sentinel_fed_each_repetition (sample_libm ℚ) (sample_env ℚ 1024) 4 (by decide) 3).2.1
      4 [0, 1, 2] (pr_omp_init (sample_env ℚ 1024) 4 3 42) (by decide) (by decide)⟩

/-- C8 as stated fails for `saxpy`: on the sample environment, `saxpy/omp` run on 2
elements for 2 repetitions of `seq` times both repetitions (durations 1 and 5: mean 3,
and 8 under the sample `sqrt`) and returns 0 having stored nothing to a process-wide
accumulator, and so does `saxpy/seq`; one repetition leaves the output `y` non-zero and
the observable actions empty. -/
theorem saxpy_feeds_no_sentinel :
    saxpy_omp_main (sample_libm ℚ) (sample_env ℚ 1024) [2, 4, 2, 42, 0]
      = Outcome.exit 0 [Event.printf ⟨"seq", 2, 1, 3, 8⟩]
    ∧ saxpy_seq_main (sample_libm ℚ) (sample_env ℚ 1024) [2, 2, 42]
      = Outcome.exit 0 [Event.printf ⟨"seq", 2, 1, 3, 8⟩]
    ∧ volatile_stores [Event.printf (⟨"seq", 2, 1, 3, 8⟩ : Record ℚ)] = []
    ∧ (saxpy_rep (sample_env ℚ 1024) (fun _ a x y n => saxpy_seq a x y n) (5 / 2) 2
          (saxpy_init (sample_env ℚ 1024) 2 42 (some [0, 0])) 0).map
        (fun s => (s.y, s.events))
      = some ([8753496879 / 4294967294, 8753669709 / 4294967294], []) := by
  refine ⟨by decide!, by decide!, by decide, by decide!⟩

/-- C7 fails on the code: the two OpenMP drivers do not test the pointer `times`.  On the
sample environment with `num_runs = -1` the request of `2^64 - 8` bytes is refused, yet
both drivers print three records and return 0; with `num_runs = 5` and `malloc` refusing
the 40 bytes of `times`, the first repetition writes through `NULL`. -/
theorem times_allocation_unchecked :
    times_bytes (-1) = 2 ^ 64 - 8
    ∧ (sample_env ℚ (2 ^ 47)).malloc_ok 3 (times_bytes (-1)) = false
    ∧ pr_omp_main (sample_libm ℚ) (sample_env ℚ (2 ^ 47)) [1, 4, -1]
      = Outcome.exit 0 [Event.printf ⟨"seq", 1, 1, 0, 0⟩, Event.printf ⟨"ingenua", 1, 4, 0, 0⟩,
          Event.printf ⟨"arrumada", 1, 4, 0, 0⟩]
    ∧ saxpy_omp_main (sample_libm ℚ) (sample_env ℚ (2 ^ 47)) [1, 4, -1]
      = Outcome.exit 0 [Event.printf ⟨"seq", 1, 1, 0, 0⟩, Event.printf ⟨"simd", 1, 1, 0, 0⟩,
          Event.printf ⟨"parallel_simd", 1, 4, 0, 0⟩]
    ∧ (sample_env ℚ 16).malloc_ok 3 (times_bytes 5) = false
    ∧ pr_omp_main (sample_libm ℚ) (sample_env ℚ 16) [1, 4, 5] = Outcome.undefined
    ∧ saxpy_omp_main (sample_libm ℚ) (sample_env ℚ 16) [1, 4, 5] = Outcome.undefined := by
  refine ⟨by decide, by decide, by decide!, by decide!, by decide, by decide!, by decide!⟩

end Claims

end IppdOpenmp
